import Mathlib

/-!
# mira: request executor, target dispatch and streaming pollers

A shallow embedding of `reddit.go` (`MiraRequest`, `Info`) and `streaming.go`
(the six stream functions) together with the properties of the specification
that concern them.

Conventions of the embedding

* A Go `string` is a sequence of bytes (`GoString`); `ascii` turns an ASCII
  literal of the source into its bytes.
* A Go result pair `(v, err)` is a Lean pair `α × Option E`; `none` is `nil`.
* A run-time panic (index or slice out of range) is the value `none` of an
  outer `Option`.
* The standard library (`url.QueryEscape`, `strconv`, `net/http`) and the parts
  of the client that are declared elsewhere are parameters, collected in
  structures.
* A goroutine that loops for ever is unfolded for a finite number of rounds;
  the answers of the remote service in round `k` are the `k`-th element of a
  list, and the effects of the goroutine are returned as a list of events.
-/

namespace Mira

/-! ## Strings and slices -/

/-- Go `string`: an immutable sequence of bytes. -/
abbrev GoString := List UInt8

/-- Bytes of an ASCII string literal of the source. -/
def ascii (s : String) : GoString :=
  s.toList.map (fun ch => UInt8.ofNat ch.toNat)

/-- Go slice expression `s[:hi]`; `none` is the out-of-range panic. -/
def sliceTo {α : Type} (s : List α) (hi : Int) : Option (List α) :=
  if 0 ≤ hi ∧ hi ≤ (s.length : Int) then some (s.take hi.toNat) else none

/-- Go index expression `xs[i]`; `none` is the out-of-range panic. -/
def index {α : Type} (xs : List α) (i : Int) : Option α :=
  if 0 ≤ i then xs[i.toNat]? else none

/-! ## Client state -/

/-- Fields of `Credentials` read by the embedded code. -/
structure Credentials where
  Username : GoString
  UserAgent : GoString

/-- Fields of `c.Stream`. -/
structure Streaming where
  CommentListInterval : Int
  PostListInterval : Int
  PostListSlice : Int

/-- Fields of `Reddit` read or written by the embedded code; `F` is `float64`. -/
structure Reddit (F : Type) where
  Token : GoString
  Creds : Credentials
  Stream : Streaming
  RateLimitUsed : Int
  RateLimitRemaining : F
  RateLimitReset : Int

/-! ## HTTP -/

/-- Value of `http.Header`: `map[string][]string`, a missing key gives `nil`. -/
abbrev Header := GoString → List GoString

/-- Method `Header.Get` for a key already in canonical form: the first value of the key, or `""`. -/
def Header.Get (h : Header) (key : GoString) : GoString :=
  match h key with
  | [] => []
  | v :: _ => v

/-- Method `Header.Set`: replaces the values of the key by the single value. -/
def Header.Set (h : Header) (key value : GoString) : Header :=
  fun k => if k = key then [value] else h k

/-- Value of `http.Request` as built by `http.NewRequest(method, url, nil)`. -/
structure Request where
  Method : GoString
  URL : GoString
  Header : Header

/-- Value of `http.Response`: headers and the bytes read from the body. -/
structure Response where
  Header : Header
  Body : List UInt8

/-- Functions called by `MiraRequest` and declared outside `reddit.go`. -/
structure Net (E F : Type) where
  /-- Function `url.QueryEscape`. -/
  QueryEscape : GoString → GoString
  /-- Error of `http.NewRequest(method, url, nil)`. -/
  NewRequest : GoString → GoString → Option E
  /-- Method `c.Client.Do`. -/
  Do : Request → Response × Option E
  /-- Function `strconv.Atoi`. -/
  Atoi : GoString → Int × Option E
  /-- Function `strconv.ParseFloat`. -/
  ParseFloat : GoString → Nat → F × Option E
  /-- Function `findRedditError`. -/
  findRedditError : List UInt8 → Option E

section MiraRequest

variable {E F : Type}

/-- Lines 25-29 of `MiraRequest`: `values` after the loop over the payload,
enumerated in the order `payload`. -/
def MiraRequest.values (env : Net E F) (payload : List (GoString × GoString)) : GoString :=
  payload.foldl
    (fun values iv =>
      let i := iv.1
      let v := env.QueryEscape iv.2
      values ++ (i ++ ascii "=" ++ v ++ ascii "&"))
    (ascii "?")

/-- Lines 25-31 of `MiraRequest`: the URL given to `http.NewRequest`. -/
def MiraRequest.url (env : Net E F) (target : GoString)
    (payload : List (GoString × GoString)) : Option GoString :=
  let values := MiraRequest.values env payload
  match sliceTo values ((values.length : Int) - 1) with
  | none => none
  | some values => some (target ++ values)

/-- Lines 35-36 of `MiraRequest`: the two headers set on the request. -/
def MiraRequest.prepare (c : Reddit F) (method url : GoString) : Request :=
  let r : Request := { Method := method, URL := url, Header := fun _ => [] }
  let r := { r with Header := r.Header.Set (ascii "User-Agent") c.Creds.UserAgent }
  { r with Header := r.Header.Set (ascii "Authorization") (ascii "Bearer " ++ c.Token) }

/-- Lines 43-58 of `MiraRequest`: the update of the three rate-limit fields. -/
def MiraRequest.rateLimit (env : Net E F) (c : Reddit F) (response : Response) : Reddit F :=
  let c :=
    let rateLimitUsed := response.Header.Get (ascii "X-Ratelimit-Used")
    if rateLimitUsed ≠ [] then
      match env.Atoi rateLimitUsed with
      | (used, none) => { c with RateLimitUsed := used }
      | (_, some _) => c
    else c
  let c :=
    let rateLimitRemaining := response.Header.Get (ascii "X-Ratelimit-Remaining")
    if rateLimitRemaining ≠ [] then
      match env.ParseFloat rateLimitRemaining 64 with
      | (remaining, none) => { c with RateLimitRemaining := remaining }
      | (_, some _) => c
    else c
  let rateLimitReset := response.Header.Get (ascii "X-Ratelimit-Reset")
  if rateLimitReset ≠ [] then
    match env.Atoi rateLimitReset with
    | (reset, none) => { c with RateLimitReset := reset }
    | (_, some _) => c
  else c

/-- Lines 31-67 of `MiraRequest`: the request with the URL `url`; the result
pair and the client afterwards. -/
def MiraRequest.send (env : Net E F) (c : Reddit F) (method url : GoString) :
    (List UInt8 × Option E) × Reddit F :=
  match env.NewRequest method url with
  | some err => (([], some err), c)
  | none =>
    match env.Do (MiraRequest.prepare c method url) with
    | (_, some err) => (([], some err), c)
    | (response, none) =>
      let c := MiraRequest.rateLimit env c response
      let data := response.Body
      match env.findRedditError data with
      | some err => (([], some err), c)
      | none => ((data, none), c)

/-- Method `(c *Reddit) MiraRequest`; the payload map is given as the list of
its pairs in the order in which `range` enumerates them. -/
def MiraRequest (env : Net E F) (c : Reddit F) (method target : GoString)
    (payload : List (GoString × GoString)) : Option ((List UInt8 × Option E) × Reddit F) :=
  match MiraRequest.url env target payload with
  | none => none
  | some url => some (MiraRequest.send env c method url)

end MiraRequest

/-! ## Target dispatch -/

/-- Constants `meType`, `submissionType`, `commentType`, `subredditType` and
`redditorType`, of a type `T` with decidable equality. -/
structure Types (T : Type) where
  meType : T
  submissionType : T
  commentType : T
  subredditType : T
  redditorType : T

/-- Values of the interface `MiraInterface` returned by `Info`, one case for
each concrete type that a fetch routine returns. -/
inductive MiraInterface (M P C S R : Type) where
  | me (v : M)
  | submission (v : P)
  | comment (v : C)
  | subreddit (v : S)
  | redditor (v : R)
  deriving DecidableEq

/-- Methods called by `Info`, as transformers of the state `σ` of the client
and of the service. -/
structure Fetch (σ T E M P C S R : Type) where
  getQueue : σ → (GoString × T) × σ
  getMe : σ → (M × Option E) × σ
  getSubmission : GoString → σ → (P × Option E) × σ
  getComment : GoString → σ → (C × Option E) × σ
  getSubreddit : GoString → σ → (S × Option E) × σ
  getUser : GoString → σ → (R × Option E) × σ
  /-- Value of `fmt.Errorf("returning type is not defined")`. -/
  notDefined : E

/-- Conversion of the result of a fetch routine to `(MiraInterface, error)`
in a `return` statement. -/
def Info.ret {σ E A I : Type} (wrap : A → I) (r : (A × Option E) × σ) :
    (Option I × Option E) × σ :=
  ((some (wrap r.1.1), r.1.2), r.2)

/-- Method `(c *Reddit) Info`. -/
def Info {σ T E M P C S R : Type} [DecidableEq T] (t : Types T)
    (f : Fetch σ T E M P C S R) (s : σ) :
    (Option (MiraInterface M P C S R) × Option E) × σ :=
  let q := f.getQueue s
  let name := q.1.1
  let ttype := q.1.2
  let s := q.2
  if ttype = t.meType then Info.ret MiraInterface.me (f.getMe s)
  else if ttype = t.submissionType then Info.ret MiraInterface.submission (f.getSubmission name s)
  else if ttype = t.commentType then Info.ret MiraInterface.comment (f.getComment name s)
  else if ttype = t.subredditType then Info.ret MiraInterface.subreddit (f.getSubreddit name s)
  else if ttype = t.redditorType then Info.ret MiraInterface.redditor (f.getUser name s)
  else ((none, some f.notDefined), s)

/-! ## Streams -/

/-- Methods of `models.Comment` and `models.PostListingChild` called by the streams. -/
structure Models (C P : Type) where
  /-- Method `GetId` of `models.Comment`. -/
  commentId : C → GoString
  /-- Method `GetId` of `models.PostListingChild`. -/
  postId : P → GoString
  IsCommentReply : C → Bool
  IsMention : C → Bool

/-- Answers of the service at one moment: the listing methods called on the
target `(name, ttype)` that `c.Subreddit`, `c.Redditor` or `c.Me` has queued. -/
structure Api (T C P E : Type) where
  Comments : GoString → T → GoString → GoString → Int → List C × Option E
  Submissions : GoString → T → GoString → GoString → Int → List P × Option E
  CommentsAfter : GoString → T → GoString → GoString → Int → List C × Option E
  SubmissionsAfter : GoString → T → GoString → Int → List P × Option E
  ListUnreadMessages : GoString → T → List C × Option E

/-- Effects of a stream goroutine. -/
inductive Event (T C P : Type) where
  | commentsAfter (name : GoString) (ttype : T) (sort last : GoString) (limit : Int)
  | submissionsAfter (name : GoString) (ttype : T) (last : GoString) (limit : Int)
  | listUnreadMessages (name : GoString) (ttype : T)
  | readMessage (name : GoString) (ttype : T) (id : GoString)
  | sendComment (v : C)
  | sendSubmission (v : P)
  | sleep (d : Int)
  deriving DecidableEq

/-- Constant `time.Second`, in nanoseconds. -/
def Second : Int := 1000000000

section Streams

variable {T C P E F : Type}

/-- Comments sent to the channel, in the order of the trace. -/
def sentComments (tr : List (Event T C P)) : List C :=
  tr.filterMap (fun e => match e with
    | .sendComment v => some v
    | _ => none)

/-- Submissions sent to the channel, in the order of the trace. -/
def sentSubmissions (tr : List (Event T C P)) : List P :=
  tr.filterMap (fun e => match e with
    | .sendSubmission v => some v
    | _ => none)

/-- One round of the loop of `StreamCommentReplies` (`classify` is
`IsCommentReply`) and of `StreamMentions` (`classify` is `IsMention`). -/
def unreadRound (t : Types T) (m : Models C P) (c : Reddit F) (classify : C → Bool)
    (api : Api T C P E) : List (Event T C P) :=
  let un := (api.ListUnreadMessages c.Creds.Username t.meType).1
  let tr : List (Event T C P) := [.listUnreadMessages c.Creds.Username t.meType]
  let tr := un.foldl
    (fun tr v =>
      if classify v then
        tr ++ [.sendComment v] ++ [.readMessage c.Creds.Username t.meType (m.commentId v)]
      else tr)
    tr
  tr ++ [.sleep (c.Stream.CommentListInterval * Second)]

/-- Goroutine of `StreamCommentReplies`, for the rounds `rounds`. -/
def StreamCommentReplies (t : Types T) (m : Models C P) (c : Reddit F) :
    List (Api T C P E) → List (Event T C P)
  | [] => []
  | api :: rounds =>
    unreadRound t m c m.IsCommentReply api ++ StreamCommentReplies t m c rounds

/-- Goroutine of `StreamMentions`, for the rounds `rounds`. -/
def StreamMentions (t : Types T) (m : Models C P) (c : Reddit F) :
    List (Api T C P E) → List (Event T C P)
  | [] => []
  | api :: rounds =>
    unreadRound t m c m.IsMention api ++ StreamMentions t m c rounds

/-- One round of the loop of `streamSubredditComments` (`ttype` is
`subredditType`) and of `streamRedditorComments` (`ttype` is `redditorType`):
the new value of `last` and the effects. -/
def commentsRound (m : Models C P) (c : Reddit F) (name : GoString) (ttype : T)
    (api : Api T C P E) (last : GoString) : GoString × List (Event T C P) :=
  let un := (api.CommentsAfter name ttype (ascii "new") last 100).1
  let tr : List (Event T C P) := [.commentsAfter name ttype (ascii "new") last 100]
  if h : (un.length : Int) < 1 then
    (last, tr ++ [.sleep (c.Stream.CommentListInterval * Second)])
  else
    have h0 : 0 < un.length := by omega
    let last := m.commentId un[0]
    let tr := un.foldl (fun tr v => tr ++ [.sendComment v]) tr
    (last, tr ++ [.sleep (c.Stream.CommentListInterval * Second)])

/-- Goroutine of the two comment streams for the rounds `rounds`, started with
`last`: the value of `last` after the rounds and the effects. -/
def commentsLoop (m : Models C P) (c : Reddit F) (name : GoString) (ttype : T) :
    List (Api T C P E) → GoString → GoString × List (Event T C P)
  | [], last => (last, [])
  | api :: rounds, last =>
    let r := commentsRound m c name ttype api last
    let r' := commentsLoop m c name ttype rounds r.1
    (r'.1, r.2 ++ r'.2)

/-- Lines 91-94: the anchor taken from the probe. -/
def anchorId {A : Type} (getId : A → GoString) (anchor : List A) : GoString :=
  let last : GoString := []
  if h : 0 < anchor.length then getId anchor[0] else last

/-- Function `streamSubredditComments`: the error of the probe, or the
goroutine for the rounds `rounds`. -/
def streamSubredditComments (t : Types T) (m : Models C P) (c : Reddit F)
    (probe : Api T C P E) (rounds : List (Api T C P E)) (subreddit : GoString) :
    Except E (GoString × List (Event T C P)) :=
  match probe.Comments subreddit t.subredditType (ascii "new") (ascii "hour") 1 with
  | (_, some err) => .error err
  | (anchor, none) =>
    .ok (commentsLoop m c subreddit t.subredditType rounds (anchorId m.commentId anchor))

/-- Function `streamRedditorComments`. -/
def streamRedditorComments (t : Types T) (m : Models C P) (c : Reddit F)
    (probe : Api T C P E) (rounds : List (Api T C P E)) (redditor : GoString) :
    Except E (GoString × List (Event T C P)) :=
  match probe.Comments redditor t.redditorType (ascii "new") (ascii "hour") 1 with
  | (_, some err) => .error err
  | (anchor, none) =>
    .ok (commentsLoop m c redditor t.redditorType rounds (anchorId m.commentId anchor))

/-- Lines 157-159: `for i := range new { ret <- new[len(new)-i-1] }`, the
events appended to `tr`. -/
def sendNewestLast (new : List P) (tr : List (Event T C P)) : Option (List (Event T C P)) :=
  (List.range new.length).foldlM
    (fun tr (i : Nat) =>
      match index new ((new.length : Int) - (i : Int) - 1) with
      | none => none
      | some v => some (tr ++ [.sendSubmission v]))
    tr

/-- One round of the loop of `streamSubredditSubmissions` (`ttype` is
`subredditType`) and of `streamRedditorSubmissions` (`ttype` is
`redditorType`): the new value of `last` and the effects. -/
def submissionsRound (m : Models C P) (c : Reddit F) (name : GoString) (ttype : T)
    (api : Api T C P E) (last : GoString) : Option (GoString × List (Event T C P)) :=
  let new := (api.SubmissionsAfter name ttype last c.Stream.PostListSlice).1
  let tr : List (Event T C P) := [.submissionsAfter name ttype last c.Stream.PostListSlice]
  if h : (new.length : Int) < 1 then
    some (last, tr ++ [.sleep (c.Stream.PostListInterval * Second)])
  else
    have h0 : 0 < new.length := by omega
    let last := m.postId new[0]
    match sendNewestLast new tr with
    | none => none
    | some tr => some (last, tr ++ [.sleep (c.Stream.PostListInterval * Second)])

/-- Goroutine of the two submission streams for the rounds `rounds`, started
with `last`: the value of `last` after the rounds and the effects. -/
def submissionsLoop (m : Models C P) (c : Reddit F) (name : GoString) (ttype : T) :
    List (Api T C P E) → GoString → Option (GoString × List (Event T C P))
  | [], last => some (last, [])
  | api :: rounds, last =>
    match submissionsRound m c name ttype api last with
    | none => none
    | some r =>
      match submissionsLoop m c name ttype rounds r.1 with
      | none => none
      | some r' => some (r'.1, r.2 ++ r'.2)

/-- Function `streamSubredditSubmissions`: the error of the probe, or the
goroutine for the rounds `rounds` (`none` if it panics). -/
def streamSubredditSubmissions (t : Types T) (m : Models C P) (c : Reddit F)
    (probe : Api T C P E) (rounds : List (Api T C P E)) (subreddit : GoString) :
    Except E (Option (GoString × List (Event T C P))) :=
  match probe.Submissions subreddit t.subredditType (ascii "new") (ascii "hour") 1 with
  | (_, some err) => .error err
  | (anchor, none) =>
    .ok (submissionsLoop m c subreddit t.subredditType rounds (anchorId m.postId anchor))

/-- Function `streamRedditorSubmissions`. -/
def streamRedditorSubmissions (t : Types T) (m : Models C P) (c : Reddit F)
    (probe : Api T C P E) (rounds : List (Api T C P E)) (redditor : GoString) :
    Except E (Option (GoString × List (Event T C P))) :=
  match probe.Submissions redditor t.redditorType (ascii "new") (ascii "hour") 1 with
  | (_, some err) => .error err
  | (anchor, none) =>
    .ok (submissionsLoop m c redditor t.redditorType rounds (anchorId m.postId anchor))

/-- Hypothesis of the cross-round ordering: in every round of a submission
stream started with `last`, the batch fetched with the current anchor is
newest-first for the recency `rec` of the ids, and every item of it is newer
than what the anchor names; the anchor of the next round is the one the code
computes. The recency `rec ""` of the empty anchor, which names no item, is a
value of `R` below the recency of the items of the first batch. -/
def NewestFirstRun {R : Type} [Preorder R] (rec : GoString → R) (m : Models C P)
    (c : Reddit F) (name : GoString) (ttype : T) :
    List (Api T C P E) → GoString → Prop
  | [], _ => True
  | api :: rounds, last =>
    let b := (api.SubmissionsAfter name ttype last c.Stream.PostListSlice).1
    b.Pairwise (fun x y => rec (m.postId y) < rec (m.postId x)) ∧
    (∀ x ∈ b, rec last < rec (m.postId x)) ∧
    match submissionsRound m c name ttype api last with
    | none => True
    | some r => NewestFirstRun rec m c name ttype rounds r.1

end Streams

/-! ## Concrete instances for the checks at explicit inputs -/

namespace Example

/-- Five distinct target types. -/
def types : Types Nat :=
  { meType := 0, submissionType := 1, commentType := 2, subredditType := 3, redditorType := 4 }

/-- Items that are their own id; a message is a comment reply when its id
starts with `r` and a mention when it starts with `m`. -/
def models : Models GoString GoString :=
  { commentId := fun v => v
    postId := fun v => v
    IsCommentReply := fun v => v.head? == some 114
    IsMention := fun v => v.head? == some 109 }

/-- A client. -/
def client : Reddit Int :=
  { Token := ascii "secret"
    Creds := { Username := ascii "bot", UserAgent := ascii "mira" }
    Stream := { CommentListInterval := 8, PostListInterval := 10, PostListSlice := 25 }
    RateLimitUsed := 1
    RateLimitRemaining := 99
    RateLimitReset := 60 }

/-- A service that answers `cs` to every call for comments or messages and
`ps` to every call for submissions. -/
def answer (cs ps : List GoString × Option Unit) : Api Nat GoString GoString Unit :=
  { Comments := fun _ _ _ _ _ => cs
    Submissions := fun _ _ _ _ _ => ps
    CommentsAfter := fun _ _ _ _ _ => cs
    SubmissionsAfter := fun _ _ _ _ => ps
    ListUnreadMessages := fun _ _ => cs }

/-- Recency of an id: its last byte. -/
def recency (id : GoString) : Nat := (id.getLastD 0).toNat

/-- A queue that holds `q`, and fetch routines that return the name they are
given and add their own name to a log of the calls. -/
def fetch (q : GoString × Nat) :
    Fetch (List String) Nat Unit GoString GoString GoString GoString GoString :=
  { getQueue := fun s => (q, s)
    getMe := fun s => ((ascii "me", none), s ++ ["getMe"])
    getSubmission := fun name s => ((name, none), s ++ ["getSubmission"])
    getComment := fun name s => ((name, none), s ++ ["getComment"])
    getSubreddit := fun name s => ((name, none), s ++ ["getSubreddit"])
    getUser := fun name s => ((name, none), s ++ ["getUser"])
    notDefined := () }

/-- A decimal parser: the value of a non-empty text of digits, an error otherwise. -/
def digits (s : GoString) : Int × Option Unit :=
  if s ≠ [] ∧ s.all (fun b => 48 ≤ b.toNat ∧ b.toNat ≤ 57) then
    (s.foldl (fun n b => 10 * n + ((b.toNat : Int) - 48)) 0, none)
  else (0, some ())

/-- A transport that answers every request with the headers `headers` and the
body `{}`; `QueryEscape` writes `+` for a space. -/
def net (headers : Header) : Net Unit Int :=
  { QueryEscape := fun v => v.map (fun b => if b = 32 then 43 else b)
    NewRequest := fun _ _ => none
    Do := fun _ => ({ Header := headers, Body := [123, 125] }, none)
    Atoi := digits
    ParseFloat := fun s _ => digits s
    findRedditError := fun _ => none }

/-- Headers with `X-Ratelimit-Used: 7` and `X-Ratelimit-Reset: soon`. -/
def headers : Header := fun k =>
  if k = ascii "X-Ratelimit-Used" then [ascii "7"]
  else if k = ascii "X-Ratelimit-Reset" then [ascii "soon"]
  else []

end Example

/-! ## Lemmas on lists -/

theorem flatten_map_append_sep {α : Type} (sep : List α) :
    ∀ (l : List (List α)), l ≠ [] →
      (l.map (fun x => x ++ sep)).flatten = sep.intercalate l ++ sep
  | [], h => absurd rfl h
  | [a], _ => by simp [List.intercalate]
  | a :: b :: r, _ => by
    have ih := flatten_map_append_sep sep (b :: r) (by simp)
    simp only [List.map_cons, List.flatten_cons] at ih ⊢
    rw [ih]
    simp [List.intercalate, List.intersperse_cons_cons]

theorem foldl_append_eq_flatten {α β : Type} (g : β → List α) :
    ∀ (l : List β) (init : List α),
      l.foldl (fun acc x => acc ++ g x) init = init ++ (l.map g).flatten
  | [], init => by simp
  | x :: l, init => by
    simp [List.foldl_cons, foldl_append_eq_flatten g l (init ++ g x)]

theorem sliceTo_dropLast {α : Type} (s : List α) (x : α) :
    sliceTo (s ++ [x]) (((s ++ [x]).length : Int) - 1) = some s := by
  unfold sliceTo
  have h1 : (((s ++ [x]).length : Int) - 1) = (s.length : Int) := by
    simp
  rw [h1]
  simp

section MiraRequestLemmas

variable {E F : Type}

theorem MiraRequest.values_eq (env : Net E F) (payload : List (GoString × GoString)) :
    MiraRequest.values env payload =
      ascii "?" ++ (payload.map
        (fun p => (p.1 ++ ascii "=" ++ env.QueryEscape p.2) ++ ascii "&")).flatten := by
  unfold MiraRequest.values
  have h := foldl_append_eq_flatten
    (fun p : GoString × GoString => (p.1 ++ ascii "=" ++ env.QueryEscape p.2) ++ ascii "&")
    payload (ascii "?")
  simpa [List.append_assoc] using h

theorem ascii_amp : ascii "&" = [38] := by decide

theorem MiraRequest.url_nil (env : Net E F) (target : GoString) :
    MiraRequest.url env target [] = some target := by
  have h : MiraRequest.values env [] = [] ++ [63] := by
    simp [MiraRequest.values]; decide
  unfold MiraRequest.url
  simp only []
  rw [h, sliceTo_dropLast]
  simp

theorem MiraRequest.url_cons (env : Net E F) (target : GoString)
    (kv : GoString × GoString) (rest : List (GoString × GoString)) :
    MiraRequest.url env target (kv :: rest) =
      some (target ++ ascii "?" ++
        (ascii "&").intercalate
          ((kv :: rest).map (fun p => p.1 ++ ascii "=" ++ env.QueryEscape p.2))) := by
  have h : MiraRequest.values env (kv :: rest) =
      (ascii "?" ++ (ascii "&").intercalate
        ((kv :: rest).map (fun p => p.1 ++ ascii "=" ++ env.QueryEscape p.2))) ++ [38] := by
    rw [MiraRequest.values_eq]
    have h2 := flatten_map_append_sep (ascii "&")
      ((kv :: rest).map (fun p => p.1 ++ ascii "=" ++ env.QueryEscape p.2)) (by simp)
    rw [List.map_map] at h2
    have h3 : ((fun x => x ++ ascii "&") ∘
        (fun p : GoString × GoString => p.1 ++ ascii "=" ++ env.QueryEscape p.2)) =
        (fun p => (p.1 ++ ascii "=" ++ env.QueryEscape p.2) ++ ascii "&") := rfl
    rw [h3] at h2
    rw [h2, ascii_amp, List.append_assoc]
  unfold MiraRequest.url
  simp only []
  rw [h, sliceTo_dropLast]
  simp

end MiraRequestLemmas

/-- C9: the URL that `MiraRequest` gives to the HTTP request. For an empty
payload the slice `values[:len(values)-1]` is in range and the URL is the
target itself; for a payload enumerated as `kv :: rest` the slice is in range
and the URL is the target, `?`, and the texts `k=QueryEscape(v)` of the pairs
in order, separated by `&`, with nothing after the last one. -/
theorem MiraRequest_url {E F : Type} (env : Net E F) (c : Reddit F) (method target : GoString) :
    (MiraRequest.url env target [] = some target ∧
      MiraRequest env c method target [] = some (MiraRequest.send env c method target)) ∧
    (∀ (kv : GoString × GoString) (rest : List (GoString × GoString)),
      MiraRequest.url env target (kv :: rest) =
        some (target ++ ascii "?" ++ (ascii "&").intercalate
          ((kv :: rest).map (fun p => p.1 ++ ascii "=" ++ env.QueryEscape p.2))) ∧
      MiraRequest env c method target (kv :: rest) =
        some (MiraRequest.send env c method
          (target ++ ascii "?" ++ (ascii "&").intercalate
            ((kv :: rest).map (fun p => p.1 ++ ascii "=" ++ env.QueryEscape p.2))))) := by
  refine ⟨⟨MiraRequest.url_nil env target, ?_⟩, fun kv rest => ?_⟩
  · simp [MiraRequest, MiraRequest.url_nil]
  · have h := MiraRequest.url_cons env target kv rest
    refine ⟨h, ?_⟩
    simp only [MiraRequest, h]


section RateLimitLemmas

variable {E F : Type}

theorem MiraRequest.rateLimit_used (env : Net E F) (c : Reddit F) (response : Response) :
    (MiraRequest.rateLimit env c response).RateLimitUsed =
      if response.Header.Get (ascii "X-Ratelimit-Used") ≠ [] ∧
          (env.Atoi (response.Header.Get (ascii "X-Ratelimit-Used"))).2.isNone
      then (env.Atoi (response.Header.Get (ascii "X-Ratelimit-Used"))).1
      else c.RateLimitUsed := by
  unfold MiraRequest.rateLimit
  rcases hA : env.Atoi (response.Header.Get (ascii "X-Ratelimit-Used")) with ⟨a, _ | ea⟩ <;>
  rcases hB : env.ParseFloat (response.Header.Get (ascii "X-Ratelimit-Remaining")) 64
    with ⟨b, _ | eb⟩ <;>
  rcases hC : env.Atoi (response.Header.Get (ascii "X-Ratelimit-Reset")) with ⟨r, _ | er⟩ <;>
  by_cases h1 : response.Header.Get (ascii "X-Ratelimit-Used") = [] <;>
  by_cases h2 : response.Header.Get (ascii "X-Ratelimit-Remaining") = [] <;>
  by_cases h3 : response.Header.Get (ascii "X-Ratelimit-Reset") = [] <;>
  simp [h1, h2, h3, hA, hB, hC]

theorem MiraRequest.rateLimit_remaining (env : Net E F) (c : Reddit F) (response : Response) :
    (MiraRequest.rateLimit env c response).RateLimitRemaining =
      if response.Header.Get (ascii "X-Ratelimit-Remaining") ≠ [] ∧
          (env.ParseFloat (response.Header.Get (ascii "X-Ratelimit-Remaining")) 64).2.isNone
      then (env.ParseFloat (response.Header.Get (ascii "X-Ratelimit-Remaining")) 64).1
      else c.RateLimitRemaining := by
  unfold MiraRequest.rateLimit
  rcases hA : env.Atoi (response.Header.Get (ascii "X-Ratelimit-Used")) with ⟨a, _ | ea⟩ <;>
  rcases hB : env.ParseFloat (response.Header.Get (ascii "X-Ratelimit-Remaining")) 64
    with ⟨b, _ | eb⟩ <;>
  rcases hC : env.Atoi (response.Header.Get (ascii "X-Ratelimit-Reset")) with ⟨r, _ | er⟩ <;>
  by_cases h1 : response.Header.Get (ascii "X-Ratelimit-Used") = [] <;>
  by_cases h2 : response.Header.Get (ascii "X-Ratelimit-Remaining") = [] <;>
  by_cases h3 : response.Header.Get (ascii "X-Ratelimit-Reset") = [] <;>
  simp [h1, h2, h3, hA, hB, hC]

theorem MiraRequest.rateLimit_reset (env : Net E F) (c : Reddit F) (response : Response) :
    (MiraRequest.rateLimit env c response).RateLimitReset =
      if response.Header.Get (ascii "X-Ratelimit-Reset") ≠ [] ∧
          (env.Atoi (response.Header.Get (ascii "X-Ratelimit-Reset"))).2.isNone
      then (env.Atoi (response.Header.Get (ascii "X-Ratelimit-Reset"))).1
      else c.RateLimitReset := by
  unfold MiraRequest.rateLimit
  rcases hA : env.Atoi (response.Header.Get (ascii "X-Ratelimit-Used")) with ⟨a, _ | ea⟩ <;>
  rcases hB : env.ParseFloat (response.Header.Get (ascii "X-Ratelimit-Remaining")) 64
    with ⟨b, _ | eb⟩ <;>
  rcases hC : env.Atoi (response.Header.Get (ascii "X-Ratelimit-Reset")) with ⟨r, _ | er⟩ <;>
  by_cases h1 : response.Header.Get (ascii "X-Ratelimit-Used") = [] <;>
  by_cases h2 : response.Header.Get (ascii "X-Ratelimit-Remaining") = [] <;>
  by_cases h3 : response.Header.Get (ascii "X-Ratelimit-Reset") = [] <;>
  simp [h1, h2, h3, hA, hB, hC]

theorem MiraRequest.send_state (env : Net E F) (c : Reddit F) (method url : GoString)
    (response : Response) (hreq : env.NewRequest method url = none)
    (hdo : env.Do (MiraRequest.prepare c method url) = (response, none)) :
    (MiraRequest.send env c method url).2 = MiraRequest.rateLimit env c response := by
  unfold MiraRequest.send
  simp only [hreq, hdo]
  cases env.findRedditError response.Body <;> rfl

theorem Header.Get_absent (h : Header) (key : GoString) (hk : h key = []) :
    Header.Get h key = [] := by
  simp [Header.Get, hk]

end RateLimitLemmas

/-- C1: the rate-limit fields after `MiraRequest`, when the request was sent
and `c.Client.Do` returned `response` without an error. Each of the three
fields is the value parsed from its header when the header value is not empty
and the parser returns no error, and is the previous value otherwise; a
response without `X-Ratelimit-Remaining` leaves `RateLimitRemaining` as it
was. -/
theorem MiraRequest_rateLimit {E F : Type} (env : Net E F) (c : Reddit F)
    (method target url : GoString) (payload : List (GoString × GoString))
    (response : Response)
    (hurl : MiraRequest.url env target payload = some url)
    (hreq : env.NewRequest method url = none)
    (hdo : env.Do (MiraRequest.prepare c method url) = (response, none)) :
    ∃ out c', MiraRequest env c method target payload = some (out, c') ∧
      c'.RateLimitUsed =
        (if response.Header.Get (ascii "X-Ratelimit-Used") ≠ [] ∧
            (env.Atoi (response.Header.Get (ascii "X-Ratelimit-Used"))).2.isNone
         then (env.Atoi (response.Header.Get (ascii "X-Ratelimit-Used"))).1
         else c.RateLimitUsed) ∧
      c'.RateLimitRemaining =
        (if response.Header.Get (ascii "X-Ratelimit-Remaining") ≠ [] ∧
            (env.ParseFloat (response.Header.Get (ascii "X-Ratelimit-Remaining")) 64).2.isNone
         then (env.ParseFloat (response.Header.Get (ascii "X-Ratelimit-Remaining")) 64).1
         else c.RateLimitRemaining) ∧
      c'.RateLimitReset =
        (if response.Header.Get (ascii "X-Ratelimit-Reset") ≠ [] ∧
            (env.Atoi (response.Header.Get (ascii "X-Ratelimit-Reset"))).2.isNone
         then (env.Atoi (response.Header.Get (ascii "X-Ratelimit-Reset"))).1
         else c.RateLimitReset) ∧
      (response.Header (ascii "X-Ratelimit-Remaining") = [] →
        c'.RateLimitRemaining = c.RateLimitRemaining) := by
  refine ⟨(MiraRequest.send env c method url).1, (MiraRequest.send env c method url).2, ?_, ?_⟩
  · simp [MiraRequest, hurl]
  · rw [MiraRequest.send_state env c method url response hreq hdo]
    refine ⟨MiraRequest.rateLimit_used env c response,
      MiraRequest.rateLimit_remaining env c response,
      MiraRequest.rateLimit_reset env c response, fun habs => ?_⟩
    rw [MiraRequest.rateLimit_remaining, Header.Get_absent _ _ habs]
    simp


theorem foldl_snoc_eq_map {α β : Type} (g : β → α) :
    ∀ (l : List β) (init : List α),
      l.foldl (fun tr v => tr ++ [g v]) init = init ++ l.map g
  | [], init => by simp
  | x :: l, init => by
    simp [List.foldl_cons, foldl_snoc_eq_map g l (init ++ [g x])]

theorem index_sub {α : Type} (xs : List α) (k : Nat) (hk : k < xs.length) :
    index xs ((xs.length : Int) - (k : Int) - 1) = xs.reverse[k]? := by
  have h1 : (xs.length : Int) - (k : Int) - 1 = ((xs.length - 1 - k : Nat) : Int) := by omega
  rw [h1, List.getElem?_reverse hk]
  simp [index]

theorem anchorId_nil {A : Type} (getId : A → GoString) : anchorId getId [] = [] := rfl

theorem anchorId_cons {A : Type} (getId : A → GoString) (a : A) (as : List A) :
    anchorId getId (a :: as) = getId a := by
  simp [anchorId]

section StreamLemmas

variable {T C P E F : Type}

theorem sendNewestLast_take (new : List P) (tr : List (Event T C P)) :
    ∀ k, k ≤ new.length →
      (List.range k).foldlM
        (fun tr (i : Nat) =>
          match index new ((new.length : Int) - (i : Int) - 1) with
          | none => none
          | some v => some (tr ++ [Event.sendSubmission v]))
        tr = some (tr ++ (new.reverse.take k).map Event.sendSubmission)
  | 0, _ => by simp
  | k + 1, hk => by
    have ih := sendNewestLast_take new tr k (by omega)
    have hlt : k < new.reverse.length := by rw [List.length_reverse]; omega
    rw [List.range_succ, List.foldlM_append, ih]
    simp only [Option.bind_eq_bind, Option.some_bind, List.foldlM_cons, List.foldlM_nil]
    rw [index_sub new k (by omega), List.take_succ, List.getElem?_eq_getElem hlt]
    simp

theorem sendNewestLast_eq (new : List P) (tr : List (Event T C P)) :
    sendNewestLast new tr = some (tr ++ new.reverse.map Event.sendSubmission) := by
  unfold sendNewestLast
  rw [sendNewestLast_take new tr new.length (le_refl _)]
  have h : new.reverse.take new.length = new.reverse := by
    rw [← List.length_reverse new, List.take_length]
  rw [h]

theorem commentsRound_nil (m : Models C P) (c : Reddit F) (name : GoString) (ttype : T)
    (api : Api T C P E) (last : GoString)
    (h : (api.CommentsAfter name ttype (ascii "new") last 100).1 = []) :
    commentsRound m c name ttype api last =
      (last, [Event.commentsAfter name ttype (ascii "new") last 100,
        Event.sleep (c.Stream.CommentListInterval * Second)]) := by
  simp [commentsRound, h]

theorem commentsRound_cons (m : Models C P) (c : Reddit F) (name : GoString) (ttype : T)
    (api : Api T C P E) (last : GoString) (x : C) (xs : List C)
    (h : (api.CommentsAfter name ttype (ascii "new") last 100).1 = x :: xs) :
    commentsRound m c name ttype api last =
      (m.commentId x, [Event.commentsAfter name ttype (ascii "new") last 100] ++
        (x :: xs).map Event.sendComment ++
        [Event.sleep (c.Stream.CommentListInterval * Second)]) := by
  have hlen : ¬ (((x :: xs).length : Int) < 1) := by simp
  unfold commentsRound
  simp only [h, hlen, dite_false, foldl_snoc_eq_map]
  rfl

theorem submissionsRound_nil (m : Models C P) (c : Reddit F) (name : GoString) (ttype : T)
    (api : Api T C P E) (last : GoString)
    (h : (api.SubmissionsAfter name ttype last c.Stream.PostListSlice).1 = []) :
    submissionsRound m c name ttype api last =
      some (last, [Event.submissionsAfter name ttype last c.Stream.PostListSlice,
        Event.sleep (c.Stream.PostListInterval * Second)]) := by
  simp [submissionsRound, h]

theorem submissionsRound_cons (m : Models C P) (c : Reddit F) (name : GoString) (ttype : T)
    (api : Api T C P E) (last : GoString) (x : P) (xs : List P)
    (h : (api.SubmissionsAfter name ttype last c.Stream.PostListSlice).1 = x :: xs) :
    submissionsRound m c name ttype api last =
      some (m.postId x, [Event.submissionsAfter name ttype last c.Stream.PostListSlice] ++
        (x :: xs).reverse.map Event.sendSubmission ++
        [Event.sleep (c.Stream.PostListInterval * Second)]) := by
  have hlen : ¬ (((x :: xs).length : Int) < 1) := by simp
  unfold submissionsRound
  simp only [h, hlen, dite_false, sendNewestLast_eq]
  rfl

theorem commentsLoop_append (m : Models C P) (c : Reddit F) (name : GoString) (ttype : T) :
    ∀ (pre post : List (Api T C P E)) (last : GoString),
      commentsLoop m c name ttype (pre ++ post) last =
        ((commentsLoop m c name ttype post (commentsLoop m c name ttype pre last).1).1,
          (commentsLoop m c name ttype pre last).2 ++
            (commentsLoop m c name ttype post (commentsLoop m c name ttype pre last).1).2)
  | [], post, last => by simp [commentsLoop]
  | api :: pre, post, last => by
    have ih := commentsLoop_append m c name ttype pre post
    rw [List.cons_append]
    simp only [commentsLoop, ih, List.append_assoc]

theorem submissionsLoop_append (m : Models C P) (c : Reddit F) (name : GoString) (ttype : T) :
    ∀ (pre post : List (Api T C P E)) (last : GoString),
      submissionsLoop m c name ttype (pre ++ post) last =
        (submissionsLoop m c name ttype pre last).bind (fun r =>
          (submissionsLoop m c name ttype post r.1).map (fun r' => (r'.1, r.2 ++ r'.2)))
  | [], post, last => by
    simp only [submissionsLoop, List.nil_append, Option.some_bind, List.nil_append]
    cases submissionsLoop m c name ttype post last <;> simp
  | api :: pre, post, last => by
    have ih := submissionsLoop_append m c name ttype pre post
    rw [List.cons_append]
    simp only [submissionsLoop]
    cases h1 : submissionsRound m c name ttype api last with
    | none => simp
    | some r =>
      simp only []
      rw [ih r.1]
      cases h2 : submissionsLoop m c name ttype pre r.1 with
      | none => simp
      | some r2 =>
        simp only [Option.some_bind]
        cases h3 : submissionsLoop m c name ttype post r2.1 <;> simp

end StreamLemmas


section StreamSnoc

variable {T C P E F : Type}

theorem submissionsLoop_snoc (m : Models C P) (c : Reddit F) (name : GoString) (ttype : T)
    (pre : List (Api T C P E)) (api : Api T C P E) (last0 last : GoString)
    (tr0 : List (Event T C P))
    (hpre : submissionsLoop m c name ttype pre last0 = some (last, tr0)) :
    submissionsLoop m c name ttype (pre ++ [api]) last0 =
      (submissionsRound m c name ttype api last).map (fun r => (r.1, tr0 ++ r.2)) := by
  rw [submissionsLoop_append, hpre]
  simp only [Option.some_bind, submissionsLoop]
  cases submissionsRound m c name ttype api last <;> simp

theorem commentsLoop_snoc (m : Models C P) (c : Reddit F) (name : GoString) (ttype : T)
    (pre : List (Api T C P E)) (api : Api T C P E) (last0 last : GoString)
    (tr0 : List (Event T C P))
    (hpre : commentsLoop m c name ttype pre last0 = (last, tr0)) :
    commentsLoop m c name ttype (pre ++ [api]) last0 =
      ((commentsRound m c name ttype api last).1,
        tr0 ++ (commentsRound m c name ttype api last).2) := by
  rw [commentsLoop_append, hpre]
  simp [commentsLoop]

theorem streamSubredditSubmissions_snoc (t : Types T) (m : Models C P) (c : Reddit F)
    (probe : Api T C P E) (pre : List (Api T C P E)) (api : Api T C P E)
    (subreddit last : GoString) (tr0 : List (Event T C P))
    (hpre : streamSubredditSubmissions t m c probe pre subreddit = .ok (some (last, tr0))) :
    streamSubredditSubmissions t m c probe (pre ++ [api]) subreddit =
      .ok ((submissionsRound m c subreddit t.subredditType api last).map
        (fun r => (r.1, tr0 ++ r.2))) := by
  unfold streamSubredditSubmissions at hpre ⊢
  rcases hp : probe.Submissions subreddit t.subredditType (ascii "new") (ascii "hour") 1
    with ⟨anchor, _ | err⟩
  · rw [hp] at hpre
    simp only [Except.ok.injEq] at hpre ⊢
    exact submissionsLoop_snoc m c subreddit t.subredditType pre api _ last tr0 hpre
  · rw [hp] at hpre
    cases hpre

theorem streamRedditorSubmissions_snoc (t : Types T) (m : Models C P) (c : Reddit F)
    (probe : Api T C P E) (pre : List (Api T C P E)) (api : Api T C P E)
    (redditor last : GoString) (tr0 : List (Event T C P))
    (hpre : streamRedditorSubmissions t m c probe pre redditor = .ok (some (last, tr0))) :
    streamRedditorSubmissions t m c probe (pre ++ [api]) redditor =
      .ok ((submissionsRound m c redditor t.redditorType api last).map
        (fun r => (r.1, tr0 ++ r.2))) := by
  unfold streamRedditorSubmissions at hpre ⊢
  rcases hp : probe.Submissions redditor t.redditorType (ascii "new") (ascii "hour") 1
    with ⟨anchor, _ | err⟩
  · rw [hp] at hpre
    simp only [Except.ok.injEq] at hpre ⊢
    exact submissionsLoop_snoc m c redditor t.redditorType pre api _ last tr0 hpre
  · rw [hp] at hpre
    cases hpre

theorem streamSubredditComments_snoc (t : Types T) (m : Models C P) (c : Reddit F)
    (probe : Api T C P E) (pre : List (Api T C P E)) (api : Api T C P E)
    (subreddit last : GoString) (tr0 : List (Event T C P))
    (hpre : streamSubredditComments t m c probe pre subreddit = .ok (last, tr0)) :
    streamSubredditComments t m c probe (pre ++ [api]) subreddit =
      .ok ((commentsRound m c subreddit t.subredditType api last).1,
        tr0 ++ (commentsRound m c subreddit t.subredditType api last).2) := by
  unfold streamSubredditComments at hpre ⊢
  rcases hp : probe.Comments subreddit t.subredditType (ascii "new") (ascii "hour") 1
    with ⟨anchor, _ | err⟩
  · rw [hp] at hpre
    simp only [Except.ok.injEq] at hpre ⊢
    exact commentsLoop_snoc m c subreddit t.subredditType pre api _ last tr0 hpre
  · rw [hp] at hpre
    cases hpre

theorem streamRedditorComments_snoc (t : Types T) (m : Models C P) (c : Reddit F)
    (probe : Api T C P E) (pre : List (Api T C P E)) (api : Api T C P E)
    (redditor last : GoString) (tr0 : List (Event T C P))
    (hpre : streamRedditorComments t m c probe pre redditor = .ok (last, tr0)) :
    streamRedditorComments t m c probe (pre ++ [api]) redditor =
      .ok ((commentsRound m c redditor t.redditorType api last).1,
        tr0 ++ (commentsRound m c redditor t.redditorType api last).2) := by
  unfold streamRedditorComments at hpre ⊢
  rcases hp : probe.Comments redditor t.redditorType (ascii "new") (ascii "hour") 1
    with ⟨anchor, _ | err⟩
  · rw [hp] at hpre
    simp only [Except.ok.injEq] at hpre ⊢
    exact commentsLoop_snoc m c redditor t.redditorType pre api _ last tr0 hpre
  · rw [hp] at hpre
    cases hpre

theorem sentSubmissions_round (e : Event T C P) (d : Int) (l : List P) :
    sentSubmissions ([e] ++ l.map Event.sendSubmission ++ [Event.sleep d]) =
      sentSubmissions [e] ++ l := by
  simp only [sentSubmissions, List.filterMap_append]
  have h : ∀ l : List P, List.filterMap (fun e : Event T C P => match e with
      | .sendSubmission v => some v
      | _ => none) (l.map Event.sendSubmission) = l := by
    intro l
    induction l with
    | nil => rfl
    | cons a l ih => simp [List.filterMap_cons, ih]
  rw [h]
  simp

theorem sentComments_round (e : Event T C P) (d : Int) (l : List C) :
    sentComments ([e] ++ l.map Event.sendComment ++ [Event.sleep d]) =
      sentComments [e] ++ l := by
  simp only [sentComments, List.filterMap_append]
  have h : ∀ l : List C, List.filterMap (fun e : Event T C P => match e with
      | .sendComment v => some v
      | _ => none) (l.map Event.sendComment) = l := by
    intro l
    induction l with
    | nil => rfl
    | cons a l ih => simp [List.filterMap_cons, ih]
  rw [h]
  simp

end StreamSnoc

/-- C2: in a round of `streamSubredditSubmissions` and of
`streamRedditorSubmissions` in which `SubmissionsAfter` returns a non-empty
batch `b`, after any rounds `pre`, the goroutine does not panic and the effects
of the round are the call, one send for each item of `b` in reverse order, and
the sleep: the items sent in that round are exactly `b.reverse`. -/
theorem submission_streams_send_reversed {T C P E F : Type} (t : Types T) (m : Models C P)
    (c : Reddit F) (probe : Api T C P E) (pre : List (Api T C P E)) (api : Api T C P E)
    (name last : GoString) (tr0 : List (Event T C P)) (b : List P) (err : Option E)
    (hb : b ≠ []) :
    (streamSubredditSubmissions t m c probe pre name = .ok (some (last, tr0)) →
      api.SubmissionsAfter name t.subredditType last c.Stream.PostListSlice = (b, err) →
      streamSubredditSubmissions t m c probe (pre ++ [api]) name =
        .ok (some (anchorId m.postId b, tr0 ++
          ([Event.submissionsAfter name t.subredditType last c.Stream.PostListSlice] ++
            b.reverse.map Event.sendSubmission ++
            [Event.sleep (c.Stream.PostListInterval * Second)]))) ∧
      sentSubmissions
        ([Event.submissionsAfter name t.subredditType last c.Stream.PostListSlice] ++
          b.reverse.map Event.sendSubmission ++
          [(Event.sleep (c.Stream.PostListInterval * Second) : Event T C P)]) =
        b.reverse) ∧
    (streamRedditorSubmissions t m c probe pre name = .ok (some (last, tr0)) →
      api.SubmissionsAfter name t.redditorType last c.Stream.PostListSlice = (b, err) →
      streamRedditorSubmissions t m c probe (pre ++ [api]) name =
        .ok (some (anchorId m.postId b, tr0 ++
          ([Event.submissionsAfter name t.redditorType last c.Stream.PostListSlice] ++
            b.reverse.map Event.sendSubmission ++
            [Event.sleep (c.Stream.PostListInterval * Second)]))) ∧
      sentSubmissions
        ([Event.submissionsAfter name t.redditorType last c.Stream.PostListSlice] ++
          b.reverse.map Event.sendSubmission ++
          [(Event.sleep (c.Stream.PostListInterval * Second) : Event T C P)]) =
        b.reverse) := by
  obtain ⟨x, xs, rfl⟩ : ∃ x xs, b = x :: xs := by
    cases b with
    | nil => exact absurd rfl hb
    | cons x xs => exact ⟨x, xs, rfl⟩
  refine ⟨fun hpre hf => ⟨?_, ?_⟩, fun hpre hf => ⟨?_, ?_⟩⟩
  · rw [streamSubredditSubmissions_snoc t m c probe pre api name last tr0 hpre,
      submissionsRound_cons m c name t.subredditType api last x xs (by rw [hf]),
      anchorId_cons]
    rfl
  · rw [sentSubmissions_round]; rfl
  · rw [streamRedditorSubmissions_snoc t m c probe pre api name last tr0 hpre,
      submissionsRound_cons m c name t.redditorType api last x xs (by rw [hf]),
      anchorId_cons]
    rfl
  · rw [sentSubmissions_round]; rfl


/-- C4: the anchor step of one round, after any rounds `pre`, for the four
anchor-based streams. When the incremental fetch returns an empty batch the
anchor after the round is the anchor before it and the round sends nothing
(its effects are the call and the sleep); when it returns a batch `x :: xs`
the anchor after the round is the id of `x`, whatever the anchor was. -/
theorem anchor_step {T C P E F : Type} (t : Types T) (m : Models C P)
    (c : Reddit F) (probe : Api T C P E) (pre : List (Api T C P E)) (api : Api T C P E)
    (name last : GoString) (tr0 : List (Event T C P)) (err : Option E) :
    (streamSubredditComments t m c probe pre name = .ok (last, tr0) →
      (api.CommentsAfter name t.subredditType (ascii "new") last 100 = ([], err) →
        streamSubredditComments t m c probe (pre ++ [api]) name =
          .ok (last, tr0 ++ [Event.commentsAfter name t.subredditType (ascii "new") last 100,
            Event.sleep (c.Stream.CommentListInterval * Second)])) ∧
      (∀ x xs, api.CommentsAfter name t.subredditType (ascii "new") last 100 = (x :: xs, err) →
        ∃ tr, streamSubredditComments t m c probe (pre ++ [api]) name =
          .ok (m.commentId x, tr0 ++ tr))) ∧
    (streamRedditorComments t m c probe pre name = .ok (last, tr0) →
      (api.CommentsAfter name t.redditorType (ascii "new") last 100 = ([], err) →
        streamRedditorComments t m c probe (pre ++ [api]) name =
          .ok (last, tr0 ++ [Event.commentsAfter name t.redditorType (ascii "new") last 100,
            Event.sleep (c.Stream.CommentListInterval * Second)])) ∧
      (∀ x xs, api.CommentsAfter name t.redditorType (ascii "new") last 100 = (x :: xs, err) →
        ∃ tr, streamRedditorComments t m c probe (pre ++ [api]) name =
          .ok (m.commentId x, tr0 ++ tr))) ∧
    (streamSubredditSubmissions t m c probe pre name = .ok (some (last, tr0)) →
      (api.SubmissionsAfter name t.subredditType last c.Stream.PostListSlice = ([], err) →
        streamSubredditSubmissions t m c probe (pre ++ [api]) name =
          .ok (some (last, tr0 ++
            [Event.submissionsAfter name t.subredditType last c.Stream.PostListSlice,
              Event.sleep (c.Stream.PostListInterval * Second)]))) ∧
      (∀ x xs,
        api.SubmissionsAfter name t.subredditType last c.Stream.PostListSlice = (x :: xs, err) →
        ∃ tr, streamSubredditSubmissions t m c probe (pre ++ [api]) name =
          .ok (some (m.postId x, tr0 ++ tr)))) ∧
    (streamRedditorSubmissions t m c probe pre name = .ok (some (last, tr0)) →
      (api.SubmissionsAfter name t.redditorType last c.Stream.PostListSlice = ([], err) →
        streamRedditorSubmissions t m c probe (pre ++ [api]) name =
          .ok (some (last, tr0 ++
            [Event.submissionsAfter name t.redditorType last c.Stream.PostListSlice,
              Event.sleep (c.Stream.PostListInterval * Second)]))) ∧
      (∀ x xs,
        api.SubmissionsAfter name t.redditorType last c.Stream.PostListSlice = (x :: xs, err) →
        ∃ tr, streamRedditorSubmissions t m c probe (pre ++ [api]) name =
          .ok (some (m.postId x, tr0 ++ tr)))) := by
  refine ⟨fun hpre => ⟨fun hf => ?_, fun x xs hf => ?_⟩,
    fun hpre => ⟨fun hf => ?_, fun x xs hf => ?_⟩,
    fun hpre => ⟨fun hf => ?_, fun x xs hf => ?_⟩,
    fun hpre => ⟨fun hf => ?_, fun x xs hf => ?_⟩⟩
  · rw [streamSubredditComments_snoc t m c probe pre api name last tr0 hpre,
      commentsRound_nil m c name t.subredditType api last (by rw [hf])]
  · rw [streamSubredditComments_snoc t m c probe pre api name last tr0 hpre,
      commentsRound_cons m c name t.subredditType api last x xs (by rw [hf])]
    exact ⟨_, rfl⟩
  · rw [streamRedditorComments_snoc t m c probe pre api name last tr0 hpre,
      commentsRound_nil m c name t.redditorType api last (by rw [hf])]
  · rw [streamRedditorComments_snoc t m c probe pre api name last tr0 hpre,
      commentsRound_cons m c name t.redditorType api last x xs (by rw [hf])]
    exact ⟨_, rfl⟩
  · rw [streamSubredditSubmissions_snoc t m c probe pre api name last tr0 hpre,
      submissionsRound_nil m c name t.subredditType api last (by rw [hf])]
    rfl
  · rw [streamSubredditSubmissions_snoc t m c probe pre api name last tr0 hpre,
      submissionsRound_cons m c name t.subredditType api last x xs (by rw [hf])]
    exact ⟨_, rfl⟩
  · rw [streamRedditorSubmissions_snoc t m c probe pre api name last tr0 hpre,
      submissionsRound_nil m c name t.redditorType api last (by rw [hf])]
    rfl
  · rw [streamRedditorSubmissions_snoc t m c probe pre api name last tr0 hpre,
      submissionsRound_cons m c name t.redditorType api last x xs (by rw [hf])]
    exact ⟨_, rfl⟩

section Establish

variable {T C P E F : Type}

theorem commentsLoop_head (m : Models C P) (c : Reddit F) (name : GoString) (ttype : T)
    (api : Api T C P E) (rounds : List (Api T C P E)) (last : GoString) :
    ∃ tr, (commentsLoop m c name ttype (api :: rounds) last).2 =
      Event.commentsAfter name ttype (ascii "new") last 100 :: tr := by
  simp only [commentsLoop]
  rcases hb : (api.CommentsAfter name ttype (ascii "new") last 100).1 with _ | ⟨x, xs⟩
  · rw [commentsRound_nil m c name ttype api last hb]
    exact ⟨_, rfl⟩
  · rw [commentsRound_cons m c name ttype api last x xs hb]
    exact ⟨_, rfl⟩

theorem submissionsRound_total (m : Models C P) (c : Reddit F) (name : GoString) (ttype : T)
    (api : Api T C P E) (last : GoString) :
    ∃ last' tr, submissionsRound m c name ttype api last =
      some (last', Event.submissionsAfter name ttype last c.Stream.PostListSlice :: tr) := by
  rcases hb : (api.SubmissionsAfter name ttype last c.Stream.PostListSlice).1 with _ | ⟨x, xs⟩
  · rw [submissionsRound_nil m c name ttype api last hb]
    exact ⟨_, _, rfl⟩
  · rw [submissionsRound_cons m c name ttype api last x xs hb]
    exact ⟨_, _, rfl⟩

theorem submissionsLoop_total (m : Models C P) (c : Reddit F) (name : GoString) (ttype : T) :
    ∀ (rounds : List (Api T C P E)) (last : GoString),
      ∃ r, submissionsLoop m c name ttype rounds last = some r
  | [], last => ⟨_, rfl⟩
  | api :: rounds, last => by
    obtain ⟨last', tr, h⟩ := submissionsRound_total m c name ttype api last
    obtain ⟨r, hr⟩ := submissionsLoop_total m c name ttype rounds last'
    refine ⟨(r.1, (Event.submissionsAfter name ttype last c.Stream.PostListSlice :: tr) ++ r.2), ?_⟩
    simp only [submissionsLoop, h, hr]

theorem submissionsLoop_head (m : Models C P) (c : Reddit F) (name : GoString) (ttype : T)
    (api : Api T C P E) (rounds : List (Api T C P E)) (last : GoString) :
    ∃ last' tr, submissionsLoop m c name ttype (api :: rounds) last =
      some (last', Event.submissionsAfter name ttype last c.Stream.PostListSlice :: tr) := by
  obtain ⟨l1, tr, h⟩ := submissionsRound_total m c name ttype api last
  obtain ⟨r, hr⟩ := submissionsLoop_total m c name ttype rounds l1
  refine ⟨r.1, tr ++ r.2, ?_⟩
  simp only [submissionsLoop, h, hr]
  rfl

end Establish

/-- C8: anchor establishment. When the probe `Comments("new", "hour", 1)` or
`Submissions("new", "hour", 1)` returns `anchor` without an error, each of
the four streams starts its goroutine with the anchor `anchorId`, which is
`""` for an empty `anchor` and the id of its first item otherwise, and the
first effect of the first round is the incremental fetch with that anchor. -/
theorem anchor_establishment {T C P E F : Type} (t : Types T) (m : Models C P)
    (c : Reddit F) (probe : Api T C P E) (api : Api T C P E) (rounds : List (Api T C P E))
    (name : GoString) :
    (anchorId m.commentId [] = [] ∧ anchorId m.postId [] = [] ∧
      (∀ a as, anchorId m.commentId (a :: as) = m.commentId a) ∧
      (∀ a as, anchorId m.postId (a :: as) = m.postId a)) ∧
    (∀ anchor,
      probe.Comments name t.subredditType (ascii "new") (ascii "hour") 1 = (anchor, none) →
      streamSubredditComments t m c probe [] name = .ok (anchorId m.commentId anchor, []) ∧
      ∃ last tr, streamSubredditComments t m c probe (api :: rounds) name =
        .ok (last, Event.commentsAfter name t.subredditType (ascii "new")
          (anchorId m.commentId anchor) 100 :: tr)) ∧
    (∀ anchor,
      probe.Comments name t.redditorType (ascii "new") (ascii "hour") 1 = (anchor, none) →
      streamRedditorComments t m c probe [] name = .ok (anchorId m.commentId anchor, []) ∧
      ∃ last tr, streamRedditorComments t m c probe (api :: rounds) name =
        .ok (last, Event.commentsAfter name t.redditorType (ascii "new")
          (anchorId m.commentId anchor) 100 :: tr)) ∧
    (∀ anchor,
      probe.Submissions name t.subredditType (ascii "new") (ascii "hour") 1 = (anchor, none) →
      streamSubredditSubmissions t m c probe [] name =
        .ok (some (anchorId m.postId anchor, [])) ∧
      ∃ last tr, streamSubredditSubmissions t m c probe (api :: rounds) name =
        .ok (some (last, Event.submissionsAfter name t.subredditType
          (anchorId m.postId anchor) c.Stream.PostListSlice :: tr))) ∧
    (∀ anchor,
      probe.Submissions name t.redditorType (ascii "new") (ascii "hour") 1 = (anchor, none) →
      streamRedditorSubmissions t m c probe [] name =
        .ok (some (anchorId m.postId anchor, [])) ∧
      ∃ last tr, streamRedditorSubmissions t m c probe (api :: rounds) name =
        .ok (some (last, Event.submissionsAfter name t.redditorType
          (anchorId m.postId anchor) c.Stream.PostListSlice :: tr))) := by
  refine ⟨⟨rfl, rfl, fun a as => anchorId_cons _ a as, fun a as => anchorId_cons _ a as⟩,
    fun anchor hp => ?_, fun anchor hp => ?_, fun anchor hp => ?_, fun anchor hp => ?_⟩
  · obtain ⟨tr, h⟩ := commentsLoop_head m c name t.subredditType api rounds
      (anchorId m.commentId anchor)
    refine ⟨by simp only [streamSubredditComments, hp, commentsLoop],
      (commentsLoop m c name t.subredditType (api :: rounds) (anchorId m.commentId anchor)).1, tr, ?_⟩
    simp only [streamSubredditComments, hp]
    rw [← h]
  · obtain ⟨tr, h⟩ := commentsLoop_head m c name t.redditorType api rounds
      (anchorId m.commentId anchor)
    refine ⟨by simp only [streamRedditorComments, hp, commentsLoop],
      (commentsLoop m c name t.redditorType (api :: rounds) (anchorId m.commentId anchor)).1, tr, ?_⟩
    simp only [streamRedditorComments, hp]
    rw [← h]
  · obtain ⟨l, tr, h⟩ := submissionsLoop_head m c name t.subredditType api rounds
      (anchorId m.postId anchor)
    refine ⟨by simp only [streamSubredditSubmissions, hp, submissionsLoop], l, tr, ?_⟩
    simp only [streamSubredditSubmissions, hp, h]
  · obtain ⟨l, tr, h⟩ := submissionsLoop_head m c name t.redditorType api rounds
      (anchorId m.postId anchor)
    refine ⟨by simp only [streamRedditorSubmissions, hp, submissionsLoop], l, tr, ?_⟩
    simp only [streamRedditorSubmissions, hp, h]


section Ordering

variable {T C P E F : Type}

theorem sentSubmissions_append (tr1 tr2 : List (Event T C P)) :
    sentSubmissions (tr1 ++ tr2) = sentSubmissions tr1 ++ sentSubmissions tr2 := by
  simp [sentSubmissions, List.filterMap_append]

theorem submissionsLoop_increasing {R : Type} [Preorder R] (rec : GoString → R)
    (m : Models C P) (c : Reddit F) (name : GoString) (ttype : T) :
    ∀ (rounds : List (Api T C P E)) (last : GoString),
      NewestFirstRun rec m c name ttype rounds last →
      ∃ r, submissionsLoop m c name ttype rounds last = some r ∧
        (sentSubmissions r.2).Pairwise (fun x y => rec (m.postId x) < rec (m.postId y)) ∧
        ∀ y ∈ sentSubmissions r.2, rec last < rec (m.postId y)
  | [], last, _ => ⟨(last, []), rfl, by simp [sentSubmissions], by simp [sentSubmissions]⟩
  | api :: rounds, last, hrun => by
    simp only [NewestFirstRun] at hrun
    obtain ⟨hpw, hnew, hrest⟩ := hrun
    rcases hb : (api.SubmissionsAfter name ttype last c.Stream.PostListSlice).1 with _ | ⟨x, xs⟩
    · have hround := submissionsRound_nil m c name ttype api last hb
      rw [hround] at hrest
      obtain ⟨r, hr, hp, hlast⟩ := submissionsLoop_increasing rec m c name ttype rounds last hrest
      refine ⟨(r.1, [Event.submissionsAfter name ttype last c.Stream.PostListSlice,
        Event.sleep (c.Stream.PostListInterval * Second)] ++ r.2), ?_, ?_, ?_⟩
      · simp only [submissionsLoop, hround, hr]
      · rw [sentSubmissions_append]
        simpa [sentSubmissions] using hp
      · rw [sentSubmissions_append]
        simpa [sentSubmissions] using hlast
    · have hround := submissionsRound_cons m c name ttype api last x xs hb
      rw [hround] at hrest
      rw [hb] at hpw hnew
      obtain ⟨r, hr, hp, hlast⟩ :=
        submissionsLoop_increasing rec m c name ttype rounds (m.postId x) hrest
      have hsent : sentSubmissions
          (([Event.submissionsAfter name ttype last c.Stream.PostListSlice] ++
            (x :: xs).reverse.map Event.sendSubmission ++
            [Event.sleep (c.Stream.PostListInterval * Second)]) ++ r.2) =
          (x :: xs).reverse ++ sentSubmissions r.2 := by
        rw [sentSubmissions_append, sentSubmissions_round]
        simp [sentSubmissions]
      have hx : rec last < rec (m.postId x) := hnew x (List.mem_cons_self x xs)
      have hxs : ∀ a ∈ xs, rec (m.postId a) < rec (m.postId x) :=
        (List.pairwise_cons.mp hpw).1
      refine ⟨(r.1, ([Event.submissionsAfter name ttype last c.Stream.PostListSlice] ++
            (x :: xs).reverse.map Event.sendSubmission ++
            [Event.sleep (c.Stream.PostListInterval * Second)]) ++ r.2), ?_, ?_, ?_⟩
      · simp only [submissionsLoop, hround, hr]
      · show (sentSubmissions _).Pairwise _
        rw [hsent, List.pairwise_append]
        refine ⟨List.pairwise_reverse.mpr hpw, hp, fun a ha y hy => ?_⟩
        rcases List.mem_cons.mp (List.mem_reverse.mp ha) with rfl | ha'
        · exact hlast y hy
        · exact lt_trans (hxs a ha') (hlast y hy)
      · show ∀ y ∈ sentSubmissions _, _
        rw [hsent]
        intro y hy
        rcases List.mem_append.mp hy with h1 | h2
        · exact hnew y (List.mem_reverse.mp h1)
        · exact lt_trans hx (hlast y h2)

end Ordering

/-- C5: cross-round ordering of the submission streams. For any rounds in which
every fetched batch is newest-first for the recency `rec` of the ids and holds
only items newer than what the anchor given to that fetch names
(`NewestFirstRun`), the goroutine of `streamSubredditSubmissions` and of
`streamRedditorSubmissions` does not panic and the items it sends, over all
the rounds, are strictly increasing in recency. -/
theorem submission_streams_chronological {T C P E F R : Type} [Preorder R]
    (rec : GoString → R) (t : Types T) (m : Models C P) (c : Reddit F)
    (probe : Api T C P E) (rounds : List (Api T C P E)) (name : GoString)
    (anchor : List P) :
    (probe.Submissions name t.subredditType (ascii "new") (ascii "hour") 1 = (anchor, none) →
      NewestFirstRun rec m c name t.subredditType rounds (anchorId m.postId anchor) →
      ∃ last tr, streamSubredditSubmissions t m c probe rounds name = .ok (some (last, tr)) ∧
        (sentSubmissions tr).Pairwise (fun x y => rec (m.postId x) < rec (m.postId y))) ∧
    (probe.Submissions name t.redditorType (ascii "new") (ascii "hour") 1 = (anchor, none) →
      NewestFirstRun rec m c name t.redditorType rounds (anchorId m.postId anchor) →
      ∃ last tr, streamRedditorSubmissions t m c probe rounds name = .ok (some (last, tr)) ∧
        (sentSubmissions tr).Pairwise (fun x y => rec (m.postId x) < rec (m.postId y))) := by
  refine ⟨fun hp hrun => ?_, fun hp hrun => ?_⟩
  · obtain ⟨r, hr, hpw, _⟩ :=
      submissionsLoop_increasing rec m c name t.subredditType rounds _ hrun
    exact ⟨r.1, r.2, by simp only [streamSubredditSubmissions, hp, hr], hpw⟩
  · obtain ⟨r, hr, hpw, _⟩ :=
      submissionsLoop_increasing rec m c name t.redditorType rounds _ hrun
    exact ⟨r.1, r.2, by simp only [streamRedditorSubmissions, hp, hr], hpw⟩


section StreamAppend

variable {T C P E F : Type}

theorem streamSubredditComments_append (t : Types T) (m : Models C P) (c : Reddit F)
    (probe : Api T C P E) (pre post : List (Api T C P E))
    (subreddit last : GoString) (tr0 : List (Event T C P))
    (hpre : streamSubredditComments t m c probe pre subreddit = .ok (last, tr0)) :
    streamSubredditComments t m c probe (pre ++ post) subreddit =
      .ok ((commentsLoop m c subreddit t.subredditType post last).1,
        tr0 ++ (commentsLoop m c subreddit t.subredditType post last).2) := by
  unfold streamSubredditComments at hpre ⊢
  rcases hp : probe.Comments subreddit t.subredditType (ascii "new") (ascii "hour") 1
    with ⟨anchor, _ | err⟩
  · rw [hp] at hpre
    simp only [Except.ok.injEq] at hpre ⊢
    rw [commentsLoop_append, hpre]
  · rw [hp] at hpre
    cases hpre

theorem streamRedditorComments_append (t : Types T) (m : Models C P) (c : Reddit F)
    (probe : Api T C P E) (pre post : List (Api T C P E))
    (redditor last : GoString) (tr0 : List (Event T C P))
    (hpre : streamRedditorComments t m c probe pre redditor = .ok (last, tr0)) :
    streamRedditorComments t m c probe (pre ++ post) redditor =
      .ok ((commentsLoop m c redditor t.redditorType post last).1,
        tr0 ++ (commentsLoop m c redditor t.redditorType post last).2) := by
  unfold streamRedditorComments at hpre ⊢
  rcases hp : probe.Comments redditor t.redditorType (ascii "new") (ascii "hour") 1
    with ⟨anchor, _ | err⟩
  · rw [hp] at hpre
    simp only [Except.ok.injEq] at hpre ⊢
    rw [commentsLoop_append, hpre]
  · rw [hp] at hpre
    cases hpre

theorem streamSubredditSubmissions_append (t : Types T) (m : Models C P) (c : Reddit F)
    (probe : Api T C P E) (pre post : List (Api T C P E))
    (subreddit last : GoString) (tr0 : List (Event T C P))
    (hpre : streamSubredditSubmissions t m c probe pre subreddit = .ok (some (last, tr0))) :
    streamSubredditSubmissions t m c probe (pre ++ post) subreddit =
      .ok ((submissionsLoop m c subreddit t.subredditType post last).map
        (fun r => (r.1, tr0 ++ r.2))) := by
  unfold streamSubredditSubmissions at hpre ⊢
  rcases hp : probe.Submissions subreddit t.subredditType (ascii "new") (ascii "hour") 1
    with ⟨anchor, _ | err⟩
  · rw [hp] at hpre
    simp only [Except.ok.injEq] at hpre ⊢
    rw [submissionsLoop_append, hpre]
    rfl
  · rw [hp] at hpre
    cases hpre

theorem streamRedditorSubmissions_append (t : Types T) (m : Models C P) (c : Reddit F)
    (probe : Api T C P E) (pre post : List (Api T C P E))
    (redditor last : GoString) (tr0 : List (Event T C P))
    (hpre : streamRedditorSubmissions t m c probe pre redditor = .ok (some (last, tr0))) :
    streamRedditorSubmissions t m c probe (pre ++ post) redditor =
      .ok ((submissionsLoop m c redditor t.redditorType post last).map
        (fun r => (r.1, tr0 ++ r.2))) := by
  unfold streamRedditorSubmissions at hpre ⊢
  rcases hp : probe.Submissions redditor t.redditorType (ascii "new") (ascii "hour") 1
    with ⟨anchor, _ | err⟩
  · rw [hp] at hpre
    simp only [Except.ok.injEq] at hpre ⊢
    rw [submissionsLoop_append, hpre]
    rfl
  · rw [hp] at hpre
    cases hpre

theorem commentsLoop_cons_nil (m : Models C P) (c : Reddit F) (name : GoString) (ttype : T)
    (api : Api T C P E) (post : List (Api T C P E)) (last : GoString)
    (h : (api.CommentsAfter name ttype (ascii "new") last 100).1 = []) :
    commentsLoop m c name ttype (api :: post) last =
      ((commentsLoop m c name ttype post last).1,
        [Event.commentsAfter name ttype (ascii "new") last 100,
          Event.sleep (c.Stream.CommentListInterval * Second)] ++
        (commentsLoop m c name ttype post last).2) := by
  simp only [commentsLoop, commentsRound_nil m c name ttype api last h]

theorem submissionsLoop_cons_nil (m : Models C P) (c : Reddit F) (name : GoString) (ttype : T)
    (api : Api T C P E) (post : List (Api T C P E)) (last : GoString)
    (h : (api.SubmissionsAfter name ttype last c.Stream.PostListSlice).1 = []) :
    submissionsLoop m c name ttype (api :: post) last =
      (submissionsLoop m c name ttype post last).map (fun r =>
        (r.1, [Event.submissionsAfter name ttype last c.Stream.PostListSlice,
          Event.sleep (c.Stream.PostListInterval * Second)] ++ r.2)) := by
  simp only [submissionsLoop, submissionsRound_nil m c name ttype api last h]
  cases submissionsLoop m c name ttype post last <;> rfl

end StreamAppend

/-- Counterexample to C6: a round of `streamSubredditComments` whose fetch
returns the error `()` together with the slice `[t1_9]` sends `t1_9` to the
channel and moves the anchor from `""` to `t1_9`. -/
theorem fetch_error_with_items_is_sent :
    (Example.answer ([ascii "t1_9"], some ()) ([], none)).CommentsAfter
        (ascii "golang") Example.types.subredditType (ascii "new") [] 100 =
      ([ascii "t1_9"], some ()) ∧
    streamSubredditComments Example.types Example.models Example.client
        (Example.answer ([], none) ([], none)) [] (ascii "golang") = .ok ([], []) ∧
    streamSubredditComments Example.types Example.models Example.client
        (Example.answer ([], none) ([], none))
        [Example.answer ([ascii "t1_9"], some ()) ([], none)] (ascii "golang") =
      .ok (ascii "t1_9",
        [Event.commentsAfter (ascii "golang") 3 (ascii "new") [] 100,
          Event.sendComment (ascii "t1_9"),
          Event.sleep 8000000000]) :=
  ⟨rfl, rfl, rfl⟩

/-- C6, with an empty slice: in a round of one of the four anchor-based streams, after any
rounds `pre`, in which the incremental fetch returns an error together with an
empty slice, the effects of the round are the call and the sleep, so nothing
is sent, and the goroutine goes on with the rounds `post` from the same
anchor. -/
theorem fetch_error_empty_round {T C P E F : Type} (t : Types T) (m : Models C P)
    (c : Reddit F) (probe : Api T C P E) (pre post : List (Api T C P E))
    (api : Api T C P E) (name last : GoString) (tr0 : List (Event T C P)) (e : E) :
    (streamSubredditComments t m c probe pre name = .ok (last, tr0) →
      api.CommentsAfter name t.subredditType (ascii "new") last 100 = ([], some e) →
      streamSubredditComments t m c probe (pre ++ api :: post) name =
        .ok ((commentsLoop m c name t.subredditType post last).1,
          tr0 ++ ([Event.commentsAfter name t.subredditType (ascii "new") last 100,
            Event.sleep (c.Stream.CommentListInterval * Second)] ++
            (commentsLoop m c name t.subredditType post last).2))) ∧
    (streamRedditorComments t m c probe pre name = .ok (last, tr0) →
      api.CommentsAfter name t.redditorType (ascii "new") last 100 = ([], some e) →
      streamRedditorComments t m c probe (pre ++ api :: post) name =
        .ok ((commentsLoop m c name t.redditorType post last).1,
          tr0 ++ ([Event.commentsAfter name t.redditorType (ascii "new") last 100,
            Event.sleep (c.Stream.CommentListInterval * Second)] ++
            (commentsLoop m c name t.redditorType post last).2))) ∧
    (streamSubredditSubmissions t m c probe pre name = .ok (some (last, tr0)) →
      api.SubmissionsAfter name t.subredditType last c.Stream.PostListSlice = ([], some e) →
      ∃ r, submissionsLoop m c name t.subredditType post last = some r ∧
        streamSubredditSubmissions t m c probe (pre ++ api :: post) name =
          .ok (some (r.1, tr0 ++
            ([Event.submissionsAfter name t.subredditType last c.Stream.PostListSlice,
              Event.sleep (c.Stream.PostListInterval * Second)] ++ r.2)))) ∧
    (streamRedditorSubmissions t m c probe pre name = .ok (some (last, tr0)) →
      api.SubmissionsAfter name t.redditorType last c.Stream.PostListSlice = ([], some e) →
      ∃ r, submissionsLoop m c name t.redditorType post last = some r ∧
        streamRedditorSubmissions t m c probe (pre ++ api :: post) name =
          .ok (some (r.1, tr0 ++
            ([Event.submissionsAfter name t.redditorType last c.Stream.PostListSlice,
              Event.sleep (c.Stream.PostListInterval * Second)] ++ r.2)))) := by
  refine ⟨fun hpre hf => ?_, fun hpre hf => ?_, fun hpre hf => ?_, fun hpre hf => ?_⟩
  · rw [streamSubredditComments_append t m c probe pre (api :: post) name last tr0 hpre,
      commentsLoop_cons_nil m c name t.subredditType api post last (by rw [hf])]
  · rw [streamRedditorComments_append t m c probe pre (api :: post) name last tr0 hpre,
      commentsLoop_cons_nil m c name t.redditorType api post last (by rw [hf])]
  · obtain ⟨r, hr⟩ := submissionsLoop_total m c name t.subredditType post last
    refine ⟨r, hr, ?_⟩
    rw [streamSubredditSubmissions_append t m c probe pre (api :: post) name last tr0 hpre,
      submissionsLoop_cons_nil m c name t.subredditType api post last (by rw [hf]), hr]
    rfl
  · obtain ⟨r, hr⟩ := submissionsLoop_total m c name t.redditorType post last
    refine ⟨r, hr, ?_⟩
    rw [streamRedditorSubmissions_append t m c probe pre (api :: post) name last tr0 hpre,
      submissionsLoop_cons_nil m c name t.redditorType api post last (by rw [hf]), hr]
    rfl

section CommentOrder

variable {T C P E F : Type}

/-- What the comment streams do with a batch: in a round of a comment stream
in which `CommentsAfter` returns `x :: xs`, the items are sent in the order of
the batch, newest first. -/
theorem comment_streams_send_in_fetch_order (t : Types T) (m : Models C P)
    (c : Reddit F) (probe : Api T C P E) (pre : List (Api T C P E)) (api : Api T C P E)
    (name last : GoString) (tr0 : List (Event T C P)) (x : C) (xs : List C)
    (err : Option E)
    (hpre : streamSubredditComments t m c probe pre name = .ok (last, tr0))
    (hf : api.CommentsAfter name t.subredditType (ascii "new") last 100 = (x :: xs, err)) :
    streamSubredditComments t m c probe (pre ++ [api]) name =
      .ok (m.commentId x, tr0 ++
        ([Event.commentsAfter name t.subredditType (ascii "new") last 100] ++
          (x :: xs).map Event.sendComment ++
          [Event.sleep (c.Stream.CommentListInterval * Second)])) ∧
    sentComments
        ([Event.commentsAfter name t.subredditType (ascii "new") last 100] ++
          (x :: xs).map Event.sendComment ++
          [(Event.sleep (c.Stream.CommentListInterval * Second) : Event T C P)]) =
      x :: xs := by
  refine ⟨?_, ?_⟩
  · rw [streamSubredditComments_snoc t m c probe pre api name last tr0 hpre,
      commentsRound_cons m c name t.subredditType api last x xs (by rw [hf])]
  · rw [sentComments_round]; rfl

end CommentOrder

/-- C3 fails on the code: for the newest-first batch `[t1_5, t1_4, t1_3]`
fetched with the anchor `t1_2`, `streamSubredditComments` and
`streamRedditorComments` send `t1_5, t1_4, t1_3`, newest first, which is not
the reverse of the batch. -/
theorem comment_streams_send_newest_first :
    streamSubredditComments Example.types Example.models Example.client
        (Example.answer ([ascii "t1_2"], none) ([], none))
        [Example.answer ([ascii "t1_5", ascii "t1_4", ascii "t1_3"], none) ([], none)]
        (ascii "golang") =
      .ok (ascii "t1_5",
        [Event.commentsAfter (ascii "golang") 3 (ascii "new") (ascii "t1_2") 100,
          Event.sendComment (ascii "t1_5"),
          Event.sendComment (ascii "t1_4"),
          Event.sendComment (ascii "t1_3"),
          Event.sleep 8000000000]) ∧
    streamRedditorComments Example.types Example.models Example.client
        (Example.answer ([ascii "t1_2"], none) ([], none))
        [Example.answer ([ascii "t1_5", ascii "t1_4", ascii "t1_3"], none) ([], none)]
        (ascii "thecsw") =
      .ok (ascii "t1_5",
        [Event.commentsAfter (ascii "thecsw") 4 (ascii "new") (ascii "t1_2") 100,
          Event.sendComment (ascii "t1_5"),
          Event.sendComment (ascii "t1_4"),
          Event.sendComment (ascii "t1_3"),
          Event.sleep 8000000000]) ∧
    [ascii "t1_5", ascii "t1_4", ascii "t1_3"] ≠
      [ascii "t1_5", ascii "t1_4", ascii "t1_3"].reverse :=
  ⟨rfl, rfl, by decide⟩


section Unread

variable {T C P E F : Type}

theorem unread_foldl (classify : C → Bool) (f : C → List (Event T C P)) :
    ∀ (un : List C) (init : List (Event T C P)),
      un.foldl (fun tr v => if classify v then tr ++ f v else tr) init =
        init ++ (un.filter classify).flatMap f
  | [], init => by simp
  | v :: un, init => by
    rw [List.foldl_cons]
    by_cases hv : classify v = true
    · simp [hv, unread_foldl classify f un, List.filter_cons]
    · simp [hv, unread_foldl classify f un, List.filter_cons]

theorem unreadRound_eq (t : Types T) (m : Models C P) (c : Reddit F) (classify : C → Bool)
    (api : Api T C P E) :
    unreadRound t m c classify api =
      [Event.listUnreadMessages c.Creds.Username t.meType] ++
        ((api.ListUnreadMessages c.Creds.Username t.meType).1.filter classify).flatMap
          (fun v => [Event.sendComment v,
            Event.readMessage c.Creds.Username t.meType (m.commentId v)]) ++
        [Event.sleep (c.Stream.CommentListInterval * Second)] := by
  unfold unreadRound
  have h := unread_foldl classify
    (fun v => [(Event.sendComment v : Event T C P),
      Event.readMessage c.Creds.Username t.meType (m.commentId v)])
    (api.ListUnreadMessages c.Creds.Username t.meType).1
    [Event.listUnreadMessages c.Creds.Username t.meType]
  simp only [List.append_assoc, List.singleton_append] at h ⊢
  rw [h]

theorem StreamCommentReplies_append (t : Types T) (m : Models C P) (c : Reddit F) :
    ∀ (pre post : List (Api T C P E)),
      StreamCommentReplies t m c (pre ++ post) =
        StreamCommentReplies t m c pre ++ StreamCommentReplies t m c post
  | [], post => by simp [StreamCommentReplies]
  | api :: pre, post => by
    rw [List.cons_append]
    simp only [StreamCommentReplies, StreamCommentReplies_append t m c pre post,
      List.append_assoc]

theorem StreamMentions_append (t : Types T) (m : Models C P) (c : Reddit F) :
    ∀ (pre post : List (Api T C P E)),
      StreamMentions t m c (pre ++ post) =
        StreamMentions t m c pre ++ StreamMentions t m c post
  | [], post => by simp [StreamMentions]
  | api :: pre, post => by
    rw [List.cons_append]
    simp only [StreamMentions, StreamMentions_append t m c pre post, List.append_assoc]

theorem read_after_send (f : C → GoString) (u : GoString) (ty : T) (id : GoString) :
    ∀ (l : List C) (k : Nat),
      (l.flatMap (fun v => [(Event.sendComment v : Event T C P),
          Event.readMessage u ty (f v)]))[k]? = some (Event.readMessage u ty id) →
      ∃ v ∈ l, f v = id ∧ 1 ≤ k ∧
        (l.flatMap (fun v => [(Event.sendComment v : Event T C P),
          Event.readMessage u ty (f v)]))[k - 1]? = some (Event.sendComment v)
  | [], k, h => by simp at h
  | v :: l, 0, h => by simp [List.flatMap_cons] at h
  | v :: l, 1, h => by
    simp only [List.flatMap_cons, List.cons_append, List.nil_append, List.getElem?_cons_succ,
      List.getElem?_cons_zero, Option.some.injEq, Event.readMessage.injEq] at h
    exact ⟨v, List.mem_cons_self v l, h.2.2, le_refl 1, by simp [List.flatMap_cons]⟩
  | v :: l, k + 2, h => by
    simp only [List.flatMap_cons, List.cons_append, List.nil_append,
      List.getElem?_cons_succ] at h
    obtain ⟨w, hw, hid, hk, hsend⟩ := read_after_send f u ty id l k h
    refine ⟨w, List.mem_cons_of_mem v hw, hid, by omega, ?_⟩
    obtain ⟨j, rfl⟩ : ∃ j, k = j + 1 := ⟨k - 1, by omega⟩
    simpa [List.flatMap_cons] using hsend

end Unread

/-- C7: one round of `StreamCommentReplies` and of `StreamMentions`, after any
rounds `pre`. The effects of the round are the call of `ListUnreadMessages`,
then for each unread message that matches the predicate, in the order of the
list, one send of the message followed at once by `ReadMessage` with its id,
then the sleep. Every message sent is an unread message that matches, every
`ReadMessage` is for the id of such a message, and it comes straight after the
send of that message. -/
theorem unread_streams_round {T C P E F : Type} (t : Types T) (m : Models C P)
    (c : Reddit F) (pre : List (Api T C P E)) (api : Api T C P E) :
    StreamCommentReplies t m c (pre ++ [api]) =
      StreamCommentReplies t m c pre ++ unreadRound t m c m.IsCommentReply api ∧
    StreamMentions t m c (pre ++ [api]) =
      StreamMentions t m c pre ++ unreadRound t m c m.IsMention api ∧
    ∀ classify : C → Bool,
      unreadRound t m c classify api =
        [Event.listUnreadMessages c.Creds.Username t.meType] ++
          ((api.ListUnreadMessages c.Creds.Username t.meType).1.filter classify).flatMap
            (fun v => [Event.sendComment v,
              Event.readMessage c.Creds.Username t.meType (m.commentId v)]) ++
          [Event.sleep (c.Stream.CommentListInterval * Second)] ∧
      (∀ v, Event.sendComment v ∈ unreadRound t m c classify api →
        v ∈ (api.ListUnreadMessages c.Creds.Username t.meType).1 ∧ classify v = true) ∧
      (∀ k u ty id, (unreadRound t m c classify api)[k]? = some (Event.readMessage u ty id) →
        ∃ v ∈ (api.ListUnreadMessages c.Creds.Username t.meType).1,
          classify v = true ∧ m.commentId v = id ∧ 1 ≤ k ∧
          (unreadRound t m c classify api)[k - 1]? = some (Event.sendComment v)) := by
  refine ⟨?_, ?_, fun classify => ⟨unreadRound_eq t m c classify api, ?_, ?_⟩⟩
  · rw [StreamCommentReplies_append]
    simp [StreamCommentReplies]
  · rw [StreamMentions_append]
    simp [StreamMentions]
  · intro v hv
    rw [unreadRound_eq] at hv
    simp only [List.mem_append, List.mem_singleton, List.mem_flatMap, List.mem_filter,
      List.mem_cons, List.not_mem_nil, or_false, Event.sendComment.injEq, reduceCtorEq,
      false_or] at hv
    obtain ⟨w, ⟨hw, hc⟩, rfl⟩ := hv
    exact ⟨hw, hc⟩
  · intro k u ty id hk
    rw [unreadRound_eq] at hk ⊢
    generalize hl : (api.ListUnreadMessages c.Creds.Username t.meType).1.filter classify = l
      at hk ⊢
    cases k with
    | zero => simp at hk
    | succ j =>
      simp only [List.singleton_append, List.cons_append, List.nil_append,
        List.getElem?_cons_succ] at hk
      have hj : j < (l.flatMap (fun v => [(Event.sendComment v : Event T C P),
          Event.readMessage c.Creds.Username t.meType (m.commentId v)])).length := by
        by_contra hge
        rw [List.getElem?_append_right (by omega)] at hk
        rcases hjj : j - (l.flatMap (fun v => [(Event.sendComment v : Event T C P),
          Event.readMessage c.Creds.Username t.meType (m.commentId v)])).length with _ | n
        · rw [hjj] at hk; simp at hk
        · rw [hjj] at hk; simp at hk
      rw [List.getElem?_append_left hj] at hk
      have hu : u = c.Creds.Username ∧ ty = t.meType := by
        have hmem := List.getElem?_mem hk
        simp only [List.mem_flatMap, List.mem_cons, Event.readMessage.injEq] at hmem
        obtain ⟨w, _, h | h | h⟩ := hmem
        · cases h
        · exact ⟨h.1, h.2.1⟩
        · simp at h
      obtain ⟨rfl, rfl⟩ := hu
      obtain ⟨v, hv, hid, h1, hsend⟩ :=
        read_after_send m.commentId c.Creds.Username t.meType id l j hk
      have hv' := hl ▸ hv
      rw [List.mem_filter] at hv'
      refine ⟨v, hv'.1, hv'.2, hid, by omega, ?_⟩
      obtain ⟨i, rfl⟩ : ∃ i, j = i + 1 := ⟨j - 1, by omega⟩
      simp only [Nat.add_sub_cancel, List.singleton_append, List.cons_append, List.nil_append,
        List.getElem?_cons_succ]
      simp only [Nat.add_sub_cancel] at hsend
      rw [List.getElem?_append_left (by omega)]
      exact hsend


/-- C10: dispatch in `Info`. With `(name, ttype)` taken from the queue, which
leaves the state `s'`, and the five type constants distinct, `Info` returns
the result of `getMe`, `getSubmission name`, `getComment name`,
`getSubreddit name` or `getUser name` according to `ttype`, and the state
after `Info` is the state after that one routine run from `s'`; for a `ttype`
that is none of the five, `Info` returns a nil interface and the error, and
the state is `s'`. -/
theorem Info_dispatch {σ T E M P C S R : Type} [DecidableEq T] (t : Types T)
    (f : Fetch σ T E M P C S R) (s s' : σ) (name : GoString) (ttype : T)
    (hd : [t.meType, t.submissionType, t.commentType, t.subredditType,
      t.redditorType].Nodup)
    (hq : f.getQueue s = ((name, ttype), s')) :
    (ttype = t.meType →
      Info t f s = ((some (MiraInterface.me (f.getMe s').1.1), (f.getMe s').1.2),
        (f.getMe s').2)) ∧
    (ttype = t.submissionType →
      Info t f s = ((some (MiraInterface.submission (f.getSubmission name s').1.1),
        (f.getSubmission name s').1.2), (f.getSubmission name s').2)) ∧
    (ttype = t.commentType →
      Info t f s = ((some (MiraInterface.comment (f.getComment name s').1.1),
        (f.getComment name s').1.2), (f.getComment name s').2)) ∧
    (ttype = t.subredditType →
      Info t f s = ((some (MiraInterface.subreddit (f.getSubreddit name s').1.1),
        (f.getSubreddit name s').1.2), (f.getSubreddit name s').2)) ∧
    (ttype = t.redditorType →
      Info t f s = ((some (MiraInterface.redditor (f.getUser name s').1.1),
        (f.getUser name s').1.2), (f.getUser name s').2)) ∧
    (ttype ∉ [t.meType, t.submissionType, t.commentType, t.subredditType,
        t.redditorType] →
      Info t f s = ((none, some f.notDefined), s')) := by
  simp only [List.nodup_cons, List.mem_cons, List.mem_singleton, List.not_mem_nil,
    not_or, or_false, not_false_eq_true, List.nodup_nil, and_true] at hd
  obtain ⟨⟨h12, h13, h14, h15⟩, ⟨h23, h24, h25⟩, ⟨h34, h35⟩, h45⟩ := hd
  refine ⟨?_, ?_, ?_, ?_, ?_, ?_⟩
  · intro h
    simp [Info, Info.ret, hq, h]
  · intro h
    simp [Info, Info.ret, hq, h, Ne.symm h12]
  · intro h
    simp [Info, Info.ret, hq, h, Ne.symm h13, Ne.symm h23]
  · intro h
    simp [Info, Info.ret, hq, h, Ne.symm h14, Ne.symm h24, Ne.symm h34]
  · intro h
    simp [Info, Info.ret, hq, h, Ne.symm h15, Ne.symm h25, Ne.symm h35, Ne.symm h45]
  · intro h
    simp only [List.mem_cons, List.mem_singleton, List.not_mem_nil, not_or, or_false] at h
    obtain ⟨n1, n2, n3, n4, n5⟩ := h
    simp [Info, hq, n1, n2, n3, n4, n5]

/-- The dispatch on the target `(test, subredditType)`: the subreddit routine
is the only call in the log; a type 9 that is none of the five gives the
error and no call. -/
theorem Info_dispatch_witness :
    Example.types.subredditType = 3 ∧
    Info Example.types (Example.fetch (ascii "test", 3)) [] =
      ((some (MiraInterface.subreddit (ascii "test")), none), ["getSubreddit"]) ∧
    Info Example.types (Example.fetch (ascii "test", 9)) [] = ((none, some ()), []) :=
  ⟨rfl,
    (Info_dispatch Example.types (Example.fetch (ascii "test", 3)) [] [] (ascii "test") 3
      (by decide) rfl).2.2.2.1 rfl,
    (Info_dispatch Example.types (Example.fetch (ascii "test", 9)) [] [] (ascii "test") 9
      (by decide) rfl).2.2.2.2.2 (by decide)⟩


/-- The rate-limit update on a response with `X-Ratelimit-Used: 7`,
no `X-Ratelimit-Remaining` and `X-Ratelimit-Reset: soon`: the first field
becomes 7 and the two others keep the values 99 and 60 of the client. -/
theorem MiraRequest_rateLimit_witness :
    MiraRequest.url (Example.net Example.headers) (ascii "/api/v1/me") [] =
      some (ascii "/api/v1/me") ∧
    ∃ out c', MiraRequest (Example.net Example.headers) Example.client (ascii "GET")
        (ascii "/api/v1/me") [] = some (out, c') ∧
      c'.RateLimitUsed = 7 ∧ c'.RateLimitRemaining = 99 ∧ c'.RateLimitReset = 60 := by
  refine ⟨rfl, ?_⟩
  obtain ⟨out, c', h, hu, hr, hs, _⟩ :=
    MiraRequest_rateLimit (Example.net Example.headers) Example.client (ascii "GET")
      (ascii "/api/v1/me") (ascii "/api/v1/me") []
      { Header := Example.headers, Body := [123, 125] } rfl rfl rfl
  exact ⟨out, c', h, by rw [hu]; rfl, by rw [hr]; rfl, by rw [hs]; rfl⟩

/-- The submission streams on the scenario of the
specification: the probe returns `[t3_2]`, the fetch returns
`[t3_5, t3_4, t3_3]`, and the stream sends `t3_3, t3_4, t3_5`. -/
theorem submission_streams_send_reversed_witness :
    streamSubredditSubmissions Example.types Example.models Example.client
        (Example.answer ([], none) ([ascii "t3_2"], none))
        [Example.answer ([], none) ([ascii "t3_5", ascii "t3_4", ascii "t3_3"], none)]
        (ascii "golang") =
      .ok (some (ascii "t3_5",
        [Event.submissionsAfter (ascii "golang") 3 (ascii "t3_2") 25,
          Event.sendSubmission (ascii "t3_3"),
          Event.sendSubmission (ascii "t3_4"),
          Event.sendSubmission (ascii "t3_5"),
          Event.sleep 10000000000])) ∧
    streamRedditorSubmissions Example.types Example.models Example.client
        (Example.answer ([], none) ([ascii "t3_2"], none))
        [Example.answer ([], none) ([ascii "t3_5", ascii "t3_4", ascii "t3_3"], none)]
        (ascii "thecsw") =
      .ok (some (ascii "t3_5",
        [Event.submissionsAfter (ascii "thecsw") 4 (ascii "t3_2") 25,
          Event.sendSubmission (ascii "t3_3"),
          Event.sendSubmission (ascii "t3_4"),
          Event.sendSubmission (ascii "t3_5"),
          Event.sleep 10000000000])) :=
  ⟨((submission_streams_send_reversed Example.types Example.models Example.client
      (Example.answer ([], none) ([ascii "t3_2"], none)) []
      (Example.answer ([], none) ([ascii "t3_5", ascii "t3_4", ascii "t3_3"], none))
      (ascii "golang") (ascii "t3_2") [] [ascii "t3_5", ascii "t3_4", ascii "t3_3"] none
      (by decide)).1 rfl rfl).1,
   ((submission_streams_send_reversed Example.types Example.models Example.client
      (Example.answer ([], none) ([ascii "t3_2"], none)) []
      (Example.answer ([], none) ([ascii "t3_5", ascii "t3_4", ascii "t3_3"], none))
      (ascii "thecsw") (ascii "t3_2") [] [ascii "t3_5", ascii "t3_4", ascii "t3_3"] none
      (by decide)).2 rfl rfl).1⟩

/-- The anchor of a comment stream started with `t1_2`: a round
with an empty batch keeps `t1_2`, a round with the batch `[t1_5, t1_4]` moves
the anchor to `t1_5`. -/
theorem anchor_step_witness :
    streamSubredditComments Example.types Example.models Example.client
        (Example.answer ([ascii "t1_2"], none) ([], none))
        [Example.answer ([], none) ([], none)] (ascii "golang") =
      .ok (ascii "t1_2",
        [Event.commentsAfter (ascii "golang") 3 (ascii "new") (ascii "t1_2") 100,
          Event.sleep 8000000000]) ∧
    ∃ tr, streamSubredditComments Example.types Example.models Example.client
        (Example.answer ([ascii "t1_2"], none) ([], none))
        [Example.answer ([ascii "t1_5", ascii "t1_4"], none) ([], none)] (ascii "golang") =
      .ok (ascii "t1_5", tr) :=
  ⟨((anchor_step Example.types Example.models Example.client
      (Example.answer ([ascii "t1_2"], none) ([], none)) []
      (Example.answer ([], none) ([], none)) (ascii "golang") (ascii "t1_2") [] none).1
      rfl).1 rfl,
   ((anchor_step Example.types Example.models Example.client
      (Example.answer ([ascii "t1_2"], none) ([], none)) []
      (Example.answer ([ascii "t1_5", ascii "t1_4"], none) ([], none)) (ascii "golang")
      (ascii "t1_2") [] none).1 rfl).2 (ascii "t1_5") [ascii "t1_4"] rfl⟩

/-- The order of the submissions sent in three rounds after the
probe `[t3_2]`: the batches `[t3_5, t3_4, t3_3]`, `[]` and `[t3_7, t3_6]`. -/
theorem submission_streams_chronological_witness :
    NewestFirstRun Example.recency Example.models Example.client (ascii "golang")
      Example.types.subredditType
      [Example.answer ([], none) ([ascii "t3_5", ascii "t3_4", ascii "t3_3"], none),
        Example.answer ([], none) ([], none),
        Example.answer ([], none) ([ascii "t3_7", ascii "t3_6"], none)]
      (ascii "t3_2") ∧
    ∃ last tr, streamSubredditSubmissions Example.types Example.models Example.client
        (Example.answer ([], none) ([ascii "t3_2"], none))
        [Example.answer ([], none) ([ascii "t3_5", ascii "t3_4", ascii "t3_3"], none),
          Example.answer ([], none) ([], none),
          Example.answer ([], none) ([ascii "t3_7", ascii "t3_6"], none)]
        (ascii "golang") = .ok (some (last, tr)) ∧
      (sentSubmissions tr).Pairwise
        (fun x y => Example.recency (Example.models.postId x) <
          Example.recency (Example.models.postId y)) := by
  have hrun : NewestFirstRun Example.recency Example.models Example.client (ascii "golang")
      Example.types.subredditType
      [Example.answer ([], none) ([ascii "t3_5", ascii "t3_4", ascii "t3_3"], none),
        Example.answer ([], none) ([], none),
        Example.answer ([], none) ([ascii "t3_7", ascii "t3_6"], none)]
      (ascii "t3_2") :=
    ⟨by decide, by decide, by decide, by decide, by decide, by decide, trivial⟩
  exact ⟨hrun,
    (submission_streams_chronological Example.recency Example.types Example.models
      Example.client (Example.answer ([], none) ([ascii "t3_2"], none)) _ (ascii "golang")
      [ascii "t3_2"]).1 rfl hrun⟩

/-- An error with an empty slice: a round whose fetch returns the error
`()` with an empty slice sends nothing and keeps the anchor `t1_2`, and the
next round, which fetches `[t1_5]` with that anchor, is run. -/
theorem fetch_error_empty_round_witness :
    streamSubredditComments Example.types Example.models Example.client
        (Example.answer ([ascii "t1_2"], none) ([], none))
        [Example.answer ([], some ()) ([], none),
          Example.answer ([ascii "t1_5"], none) ([], none)] (ascii "golang") =
      .ok (ascii "t1_5",
        [Event.commentsAfter (ascii "golang") 3 (ascii "new") (ascii "t1_2") 100,
          Event.sleep 8000000000,
          Event.commentsAfter (ascii "golang") 3 (ascii "new") (ascii "t1_2") 100,
          Event.sendComment (ascii "t1_5"),
          Event.sleep 8000000000]) :=
  (fetch_error_empty_round Example.types Example.models Example.client
    (Example.answer ([ascii "t1_2"], none) ([], none)) []
    [Example.answer ([ascii "t1_5"], none) ([], none)]
    (Example.answer ([], some ()) ([], none)) (ascii "golang") (ascii "t1_2") [] ()).1
    rfl rfl

/-- The first anchor: a probe that returns `[t3_2]` gives the
anchor `t3_2`, a probe that returns nothing gives the anchor `""`. -/
theorem anchor_establishment_witness :
    streamSubredditSubmissions Example.types Example.models Example.client
        (Example.answer ([], none) ([ascii "t3_2"], none)) [] (ascii "golang") =
      .ok (some (ascii "t3_2", [])) ∧
    streamRedditorComments Example.types Example.models Example.client
        (Example.answer ([], none) ([], none)) [] (ascii "thecsw") = .ok ([], []) :=
  ⟨((anchor_establishment Example.types Example.models Example.client
      (Example.answer ([], none) ([ascii "t3_2"], none))
      (Example.answer ([], none) ([], none)) [] (ascii "golang")).2.2.2.1
      [ascii "t3_2"] rfl).1,
   ((anchor_establishment Example.types Example.models Example.client
      (Example.answer ([], none) ([], none))
      (Example.answer ([], none) ([], none)) [] (ascii "thecsw")).2.2.1
      [] rfl).1⟩

/-- The URL for the payload `id=t3_abc`, `q=a b`, enumerated in that order. -/
theorem MiraRequest_url_witness :
    MiraRequest.url (Example.net Example.headers) (ascii "/api/info.json")
        [(ascii "id", ascii "t3_abc"), (ascii "q", ascii "a b")] =
      some (ascii "/api/info.json?id=t3_abc&q=a+b") :=
  ((MiraRequest_url (Example.net Example.headers) Example.client (ascii "GET")
    (ascii "/api/info.json")).2 (ascii "id", ascii "t3_abc") [(ascii "q", ascii "a b")]).1

/-- The two classifier streams on the unread messages `r1` (a comment reply),
`m1` (a mention) and `x1` (neither): each sends its own message only and marks
it read after the send. -/
theorem unread_streams_round_witness :
    StreamCommentReplies Example.types Example.models Example.client
        [Example.answer ([ascii "r1", ascii "m1", ascii "x1"], none) ([], none)] =
      [Event.listUnreadMessages (ascii "bot") 0,
        Event.sendComment (ascii "r1"),
        Event.readMessage (ascii "bot") 0 (ascii "r1"),
        Event.sleep 8000000000] ∧
    StreamMentions Example.types Example.models Example.client
        [Example.answer ([ascii "r1", ascii "m1", ascii "x1"], none) ([], none)] =
      [Event.listUnreadMessages (ascii "bot") 0,
        Event.sendComment (ascii "m1"),
        Event.readMessage (ascii "bot") 0 (ascii "m1"),
        Event.sleep 8000000000] :=
  ⟨(unread_streams_round Example.types Example.models Example.client []
      (Example.answer ([ascii "r1", ascii "m1", ascii "x1"], none) ([], none))).1,
   (unread_streams_round Example.types Example.models Example.client []
      (Example.answer ([ascii "r1", ascii "m1", ascii "x1"], none) ([], none))).2.1⟩

end Mira
